import Mathlib

/-!
# tournamap: the view-location logic of `src/Map.js`

A shallow embedding of the module-level location cache load, of
`getCurrentPosition`, and of the `Map` component's state and effects,
together with the platform pieces they call (`localStorage`, `JSON.parse`,
`JSON.stringify`, promise chaining, React state setters, Leaflet's view).

Numbers are finite decimals `mantissa / 10 ^ scale` kept in lowest terms, so
that two numbers are equal exactly when their values are; the rounding of
IEEE doubles and the infinities are outside the model.  Strings are sequences
of Unicode scalar values.
-/

namespace Tournamap

/-! ## JavaScript values -/

/-- A finite JavaScript number, as the decimal `mantissa / 10 ^ scale` with
no removable trailing zero. -/
structure JSNum where
  mantissa : Int
  scale : Nat
  normal : scale = 0 ∨ mantissa % 10 ≠ 0
  deriving DecidableEq

/-- Strips trailing zeros of the fraction: the pair denotes the same decimal. -/
def normalize : Int → Nat → Int × Nat
  | m, 0 => (m, 0)
  | m, e + 1 => if m % 10 = 0 then normalize (m / 10) e else (m, e + 1)

/-- The number `m / 10 ^ e`. -/
def JSNum.ofDecimal (m : Int) (e : Nat) : JSNum :=
  ⟨(normalize m e).1, (normalize m e).2, by
    induction e generalizing m with
    | zero => exact Or.inl rfl
    | succ e ih =>
      unfold normalize
      split
      · exact ih _
      · rename_i h
        exact Or.inr h⟩

/-- The values that `JSON.parse`, array destructuring and the component
state range over. -/
inductive JSValue where
  | undefined
  | null
  | bool (b : Bool)
  | num (n : JSNum)
  | str (s : String)
  | arr (xs : List JSValue)
  | obj (members : List (String × JSValue))

/-- The errors that can be thrown or used as a rejection reason. -/
inductive JSError where
  /-- Thrown by `JSON.parse` on text that is not JSON. -/
  | syntaxError
  /-- Thrown by array destructuring of a value that is not iterable. -/
  | typeError
  /-- Thrown by `localStorage.setItem` when the value does not fit. -/
  | quotaExceeded
  /-- A `GeolocationPositionError`: code 1 is permission denied, 2 is
  position unavailable, 3 is timeout. -/
  | positionError (code : Nat)
  /-- The reason of a bare `reject()`. -/
  | noReason
  deriving DecidableEq

/-! ## `JSON.parse` -/

namespace JSON

/-- JSON whitespace. -/
def isWs (c : Char) : Bool :=
  c = ' ' || c = '\t' || c = '\n' || c = '\r'

/-- Drops leading whitespace. -/
def skipWs : List Char → List Char
  | [] => []
  | c :: cs => if isWs c then skipWs cs else c :: cs

/-- Splits off the longest prefix of decimal digits. -/
def takeDigits : List Char → List Char × List Char
  | [] => ([], [])
  | c :: cs =>
    if c.isDigit then ((c :: (takeDigits cs).1), (takeDigits cs).2) else ([], c :: cs)

/-- The value of a digit character. -/
def digitVal (c : Char) : Nat := c.toNat - 48

/-- The natural number written by a list of digits. -/
def digitsToNat (ds : List Char) : Nat :=
  ds.foldl (fun n c => 10 * n + digitVal c) 0

/-- The integer part of a JSON number is `0` or starts with a non-zero digit. -/
def validInt (ds : List Char) : Bool :=
  match ds with
  | [] => false
  | [_] => true
  | c :: _ :: _ => c != '0'

/-- The optional fraction of a JSON number: a dot and at least one digit. -/
def parseFrac (cs : List Char) : Option (List Char × List Char) :=
  match cs with
  | '.' :: rest =>
    match takeDigits rest with
    | ([], _) => none
    | (ds, rest') => some (ds, rest')
  | _ => some ([], cs)

/-- The optional exponent of a JSON number. -/
def parseExp (cs : List Char) : Option (Int × List Char) :=
  let signed (neg : Bool) (rest : List Char) : Option (Int × List Char) :=
    match takeDigits rest with
    | ([], _) => none
    | (ds, rest') =>
      some ((if neg then -(digitsToNat ds : Int) else (digitsToNat ds : Int)), rest')
  match cs with
  | c :: rest =>
    if c = 'e' ∨ c = 'E' then
      match rest with
      | '+' :: rest' => signed false rest'
      | '-' :: rest' => signed true rest'
      | _ => signed false rest
    else some (0, cs)
  | [] => some (0, cs)

/-- The decimal `± digits × 10 ^ (exp - fracLen)`. -/
def mkNum (neg : Bool) (digits : Nat) (fracLen : Nat) (exp : Int) : JSNum :=
  let m : Int := if neg then -(digits : Int) else (digits : Int)
  if exp ≤ (fracLen : Int) then JSNum.ofDecimal m ((fracLen : Int) - exp).toNat
  else JSNum.ofDecimal (m * 10 ^ (exp - (fracLen : Int)).toNat) 0

/-- A JSON number after its sign. -/
def parseUnsigned (neg : Bool) (cs : List Char) : Option (JSNum × List Char) :=
  match takeDigits cs with
  | (ints, cs2) =>
    if validInt ints then
      match parseFrac cs2 with
      | none => none
      | some (fracs, cs3) =>
        match parseExp cs3 with
        | none => none
        | some (exp, cs4) =>
          some (mkNum neg (digitsToNat (ints ++ fracs)) fracs.length exp, cs4)
    else none

/-- A JSON number at the head of the input. -/
def parseNumber (cs : List Char) : Option (JSNum × List Char) :=
  match cs with
  | '-' :: rest => parseUnsigned true rest
  | _ => parseUnsigned false cs

/-- The value of a hexadecimal digit. -/
def hexVal (c : Char) : Option Nat :=
  if c.isDigit then some (c.toNat - 48)
  else if 'a'.toNat ≤ c.toNat ∧ c.toNat ≤ 'f'.toNat then some (c.toNat - 87)
  else if 'A'.toNat ≤ c.toNat ∧ c.toNat ≤ 'F'.toNat then some (c.toNat - 55)
  else none

/-- The code unit written by four hexadecimal digits. -/
def hex4 (a b c d : Char) : Option Nat :=
  match hexVal a, hexVal b, hexVal c, hexVal d with
  | some x, some y, some z, some w => some (((x * 16 + y) * 16 + z) * 16 + w)
  | _, _, _, _ => none

/-- The body of a JSON string, after the opening quote; `acc` holds the
characters read so far, last first.  An escape of a surrogate half is read
as U+FFFD (pairs are not joined). -/
def parseString : List Char → List Char → Option (String × List Char)
  | [], _ => none
  | '"' :: rest, acc => some (String.mk acc.reverse, rest)
  | '\\' :: 'u' :: a :: b :: c :: d :: rest, acc =>
    match hex4 a b c d with
    | none => none
    | some u =>
      if 0xD800 ≤ u ∧ u < 0xE000 then parseString rest (Char.ofNat 0xFFFD :: acc)
      else parseString rest (Char.ofNat u :: acc)
  | '\\' :: e :: rest, acc =>
    if e = '"' then parseString rest ('"' :: acc)
    else if e = '\\' then parseString rest ('\\' :: acc)
    else if e = '/' then parseString rest ('/' :: acc)
    else if e = 'b' then parseString rest (Char.ofNat 8 :: acc)
    else if e = 'f' then parseString rest (Char.ofNat 12 :: acc)
    else if e = 'n' then parseString rest ('\n' :: acc)
    else if e = 'r' then parseString rest ('\r' :: acc)
    else if e = 't' then parseString rest ('\t' :: acc)
    else none
  | c :: rest, acc =>
    if c.toNat < 32 ∨ c = '\\' then none else parseString rest (c :: acc)

/-- The literals `null`, `true` and `false`. -/
def parseLiteral (cs : List Char) : Option (JSValue × List Char) :=
  match cs with
  | 'n' :: 'u' :: 'l' :: 'l' :: rest => some (.null, rest)
  | 't' :: 'r' :: 'u' :: 'e' :: rest => some (.bool true, rest)
  | 'f' :: 'a' :: 'l' :: 's' :: 'e' :: rest => some (.bool false, rest)
  | _ => none

mutual
/-- A JSON value at the head of the input (no leading whitespace). -/
def parseValue : Nat → List Char → Option (JSValue × List Char)
  | 0, _ => none
  | _ + 1, [] => none
  | fuel + 1, c :: cs =>
    if c = '[' then
      match skipWs cs with
      | ']' :: rest => some (.arr [], rest)
      | rest =>
        match parseElements fuel rest with
        | none => none
        | some (xs, rest') => some (.arr xs, rest')
    else if c = '{' then
      match skipWs cs with
      | '}' :: rest => some (.obj [], rest)
      | rest =>
        match parseMembers fuel rest with
        | none => none
        | some (ms, rest') => some (.obj ms, rest')
    else if c = '"' then
      match parseString cs [] with
      | none => none
      | some (s, rest) => some (.str s, rest)
    else if c = '-' ∨ c.isDigit then
      match parseNumber (c :: cs) with
      | none => none
      | some (n, rest) => some (.num n, rest)
    else parseLiteral (c :: cs)
/-- The elements of a non-empty JSON array, up to and including `]`. -/
def parseElements : Nat → List Char → Option (List JSValue × List Char)
  | 0, _ => none
  | fuel + 1, cs =>
    match parseValue fuel (skipWs cs) with
    | none => none
    | some (v, rest) =>
      match skipWs rest with
      | ',' :: rest' =>
        match parseElements fuel rest' with
        | none => none
        | some (vs, rest'') => some (v :: vs, rest'')
      | ']' :: rest' => some ([v], rest')
      | _ => none
/-- The members of a non-empty JSON object, up to and including `}`. -/
def parseMembers : Nat → List Char → Option (List (String × JSValue) × List Char)
  | 0, _ => none
  | fuel + 1, cs =>
    match skipWs cs with
    | '"' :: rest =>
      match parseString rest [] with
      | none => none
      | some (k, rest1) =>
        match skipWs rest1 with
        | ':' :: rest2 =>
          match parseValue fuel (skipWs rest2) with
          | none => none
          | some (v, rest3) =>
            match skipWs rest3 with
            | ',' :: rest4 =>
              match parseMembers fuel rest4 with
              | none => none
              | some (ms, rest5) => some ((k, v) :: ms, rest5)
            | '}' :: rest4 => some ([(k, v)], rest4)
            | _ => none
        | _ => none
    | _ => none
end

/-- The recursion budget of `parse`: twice the length of the text and two.
Every recursive call but the one for the first element of an array follows a
consumed character, so the budget is never used up. -/
def fuelFor (cs : List Char) : Nat := 2 * cs.length + 2

/-- The builtin `JSON.parse`: one JSON value surrounded by optional
whitespace, or a `SyntaxError`. -/
def parse (s : String) : Except JSError JSValue :=
  match parseValue (fuelFor s.data) (skipWs s.data) with
  | none => .error .syntaxError
  | some (v, rest) =>
    match skipWs rest with
    | [] => .ok v
    | _ :: _ => .error .syntaxError

/-! ## `JSON.stringify` on arrays of numbers -/

/-- The character of a decimal digit. -/
def digitChar (d : Nat) : Char := Char.ofNat (48 + d)

/-- The `k` least significant decimal digits of `n`, most significant first. -/
def lastDigits : Nat → Nat → List Char
  | 0, _ => []
  | k + 1, n => lastDigits k (n / 10) ++ [digitChar (n % 10)]

/-- The number of decimal digits of `n` (one for zero); the first argument
bounds the recursion. -/
def numDigits : Nat → Nat → Nat
  | 0, _ => 1
  | fuel + 1, n => if n < 10 then 1 else numDigits fuel (n / 10) + 1

/-- The decimal digits of a natural number, without leading zeros. -/
def natDigits (n : Nat) : List Char := lastDigits (numDigits n n) n

/-- Strips the trailing zeros of a natural number and counts them; the first
argument bounds the recursion. -/
def stripZeros : Nat → Nat → Nat × Nat
  | 0, n => (n, 0)
  | fuel + 1, n =>
    if n ≠ 0 ∧ n % 10 = 0 then ((stripZeros fuel (n / 10)).1, (stripZeros fuel (n / 10)).2 + 1)
    else (n, 0)

/-- Positional notation of `n / 10 ^ scale`: the integer part and, when there
is one, the `scale` digits of the fraction. -/
def unsignedToString (n scale : Nat) : List Char :=
  natDigits (n / 10 ^ scale)
    ++ (if scale = 0 then [] else '.' :: lastDigits scale (n % 10 ^ scale))

/-- Exponent notation of the number with significant digits `s` and decimal
exponent `e`: the first digit, the other digits after a dot when there are
any, then `e`, the sign of the exponent and its digits. -/
def exponentToString (s : Nat) (e : Int) : List Char :=
  match natDigits s with
  | [] => []
  | d :: ds =>
    d :: (if ds = [] then [] else '.' :: ds)
      ++ 'e' :: (if e < 0 then '-' else '+') :: natDigits e.natAbs

/-- The text of a non-negative number `a / 10 ^ scale` (`Number::toString`).
With `k` significant digits `s` and the decimal point after the digit number
`n`, that is the value `s × 10 ^ (n - k)`: positional notation when
`-6 < n ≤ 21`, exponent notation with exponent `n - 1` otherwise. -/
def magnitudeToString (a scale : Nat) : List Char :=
  let s := (stripZeros a a).1
  let z := (stripZeros a a).2
  let n : Int := ((numDigits s s + z : Nat) : Int) - (scale : Int)
  if -6 < n ∧ n ≤ 21 then unsignedToString a scale else exponentToString s (n - 1)

/-- The text of a number: a minus sign for a negative one, then the text of
its magnitude. -/
def numberToString (x : JSNum) : List Char :=
  (if x.mantissa < 0 then ['-'] else []) ++ magnitudeToString x.mantissa.natAbs x.scale

/-- The elements of an array of numbers, separated by commas, then `]`. -/
def elementsToString : List JSNum → List Char
  | [] => [']']
  | [x] => numberToString x ++ [']']
  | x :: y :: rest => numberToString x ++ ',' :: elementsToString (y :: rest)

/-- The builtin `JSON.stringify`, on an array of finite numbers. -/
def stringify (xs : List JSNum) : String :=
  String.mk ('[' :: elementsToString xs)

end JSON

/-! ## `localStorage` -/

/-- The storage area of the page's origin: its items and the room it has. -/
structure Storage where
  items : List (String × String)
  quota : Nat

namespace Storage

/-- The size the quota is measured against. -/
def size (items : List (String × String)) : Nat :=
  (items.map (fun kv => kv.1.length + kv.2.length)).sum

/-- The method `localStorage.getItem`: `none` stands for `null`. -/
def getItem (st : Storage) (key : String) : Option String :=
  (st.items.find? (fun kv => kv.1 = key)).map (fun kv => kv.2)

/-- The method `localStorage.setItem`: replaces the item of that key, or throws
`QuotaExceededError` and changes nothing when the result does not fit. -/
def setItem (st : Storage) (key value : String) : Except JSError Storage :=
  let items := (key, value) :: st.items.filter (fun kv => kv.1 ≠ key)
  if size items ≤ st.quota then .ok { st with items := items } else .error .quotaExceeded

/-- The method `localStorage.clear`: removes every item. -/
def clear (st : Storage) : Storage := { st with items := [] }

end Storage

/-! ## Module level: constants and the location cache load -/

/-- The key of the cached location in `localStorage`. -/
def LOCATION_CACHE_KEY : String := "userLatLng"

/-- Location to initialize the map to if no user location can be found. -/
def FALLBACK_INITIAL_LOCATION : JSValue :=
  .arr [.num ⟨51505, 3, by decide⟩, .num ⟨-9, 2, by decide⟩]

/-- A line written by `console.log`. -/
inductive LogEntry where
  | text (s : String)
  | error (e : JSError)

/-- The module-level variables after the module body has run, with the
storage and the console it leaves behind. -/
structure ModuleState where
  initialLocation : JSValue
  locationCacheHit : Bool
  storage : Storage
  console : List LogEntry

/-- The values an array destructuring pattern iterates over: the elements of
an array, the characters of a string; anything else `JSON.parse` returns is
not iterable and throws `TypeError`. -/
def iterate : JSValue → Except JSError (List JSValue)
  | .arr xs => .ok xs
  | .str s => .ok (s.data.map (fun c => JSValue.str (String.singleton c)))
  | _ => .error .typeError

/-- The pattern `let [lat, lng] = v`: the first two values, `undefined` when
there are fewer. -/
def destructurePair (v : JSValue) : Except JSError (JSValue × JSValue) :=
  match iterate v with
  | .error e => .error e
  | .ok xs => .ok (xs.getD 0 .undefined, xs.getD 1 .undefined)

/-- The body of the `try` block (lines 31-40).  Both throwing steps come
before the first assignment, so a throw leaves the variables as they were. -/
def tryLoad (m : ModuleState) : Except JSError ModuleState :=
  match m.storage.getItem LOCATION_CACHE_KEY with
  | none =>
    .ok { m with console := m.console ++ [.text "User location not set in local storage."] }
  | some cachedLocationStr =>
    match JSON.parse cachedLocationStr with
    | .error e => .error e
    | .ok parsed =>
      match destructurePair parsed with
      | .error e => .error e
      | .ok (lat, lng) =>
        .ok { m with initialLocation := .arr [lat, lng], locationCacheHit := true }

/-- The module-level cache load (lines 27-46): `try` the load, and on any
throw log it and clear the storage.  An `error` result would be a throw that
leaves the module body. -/
def loadModule (storage : Storage) : Except JSError ModuleState :=
  let m : ModuleState :=
    { initialLocation := FALLBACK_INITIAL_LOCATION, locationCacheHit := false,
      storage := storage, console := [] }
  match tryLoad m with
  | .ok m' => .ok m'
  | .error e =>
    .ok { m with
      storage := m.storage.clear,
      console := m.console ++
        [.text "Error while attempting to parse cached location from local storage:",
         .error e, .text "Local storage cleared."] }

/-! ## The `Map` component -/

/-- The result the platform's geolocation lookup ends with. -/
inductive SensorResult where
  /-- The success callback, with `resp.coords.latitude` and `.longitude`. -/
  | position (latitude longitude : JSNum)
  /-- The failure callback, with the platform's error. -/
  | failed (e : JSError)
  /-- No `navigator.geolocation` at all. -/
  | unsupported

/-- The state of a mounted `Map`: its three React state variables, what the
location effect closed over, the promise of `getCurrentPosition`, and the
surroundings the component acts on. -/
structure MapState where
  tourneyData : JSValue
  mapCenter : JSValue
  locationLoading : Bool
  /-- The `locationLoading` of the first render, which the effect of line 86
  (dependency list `[]`) closed over. -/
  effectLocationLoading : Bool
  /-- Whether the promise of `getCurrentPosition` is settled. -/
  sensorSettled : Bool
  /-- The centre of the Leaflet view. -/
  view : JSValue
  storage : Storage
  console : List LogEntry
  alerts : List String
  /-- Rejections that no handler of a promise chain took. -/
  unhandled : List JSError

/-- A computation that may throw and acts on the state either way. -/
abbrev Effect (α : Type) := MapState → Except JSError α × MapState

/-- The component `ViewChanger` (lines 142-146), run at every render of
`Map`: `map.setView(center, map.zoom)`. -/
def ViewChanger (center : JSValue) (s : MapState) : MapState :=
  { s with view := center }

/-- A render of `Map`, as far as the view goes: `ViewChanger` is rendered with
`center = mapCenter`. -/
def render (s : MapState) : MapState := ViewChanger s.mapCenter s

/-- The setter `setMapCenter`, called with a fresh array: always a new state. -/
def setMapCenter (location : JSValue) (s : MapState) : MapState :=
  render { s with mapCenter := location }

/-- The setter `setLocationLoading`: React skips the render when the value is
the one it already holds. -/
def setLocationLoading (b : Bool) (s : MapState) : MapState :=
  if s.locationLoading = b then s else render { s with locationLoading := b }

/-- The setter `setTourneyData`, called with a freshly parsed value. -/
def setTourneyData (data : JSValue) (s : MapState) : MapState :=
  render { s with tourneyData := data }

/-- The call `console.log`. -/
def consoleLog (entry : LogEntry) (s : MapState) : MapState :=
  { s with console := s.console ++ [entry] }

/-- The function `getCurrentPosition` (lines 48-66), given what the platform
answers: the settled promise. -/
def getCurrentPosition (r : SensorResult) : Effect (JSNum × JSNum) := fun s =>
  match r with
  | .position latitude longitude => (.ok (latitude, longitude), s)
  | .failed e => (.error e, s)
  | .unsupported =>
    (.error .noReason,
      { s with alerts := s.alerts ++
          ["Please enable the browser to know your location or Geolocation is not supported by this browser."] })

/-- Promise chaining with `.then(f)`: `f` runs on fulfilment, a rejection
passes through. -/
def andThen {α β : Type} (p : Effect α) (f : α → Effect β) : Effect β := fun s =>
  match p s with
  | (.ok a, s') => f a s'
  | (.error e, s') => (.error e, s')

/-- Promise chaining with `.catch(h)`: `h` runs on rejection and its outcome
replaces it. -/
def orCatch {α : Type} (p : Effect α) (h : JSError → Effect α) : Effect α := fun s =>
  match p s with
  | (.ok a, s') => (.ok a, s')
  | (.error e, s') => h e s'

/-- Promise chaining with `.finally(f)`: `f` runs either way and the outcome
passes through unless `f` throws. -/
def andFinally {α : Type} (p : Effect α) (f : Effect Unit) : Effect α := fun s =>
  match p s with
  | (r, s') =>
    match f s' with
    | (.ok _, s'') => (r, s'')
    | (.error e, s'') => (.error e, s'')

/-- The `.then` callback of the location effect (lines 88-99). -/
def onLocation (location : JSNum × JSNum) : Effect Unit := fun s =>
  match s.storage.setItem LOCATION_CACHE_KEY (JSON.stringify [location.1, location.2]) with
  | .error e => (.error e, s)
  | .ok storage =>
    let s := { s with storage := storage }
    if s.effectLocationLoading then
      (.ok (), setMapCenter (.arr [.num location.1, .num location.2])
        (consoleLog (.text "updating location") s))
    else (.ok (), s)

/-- The promise chain of the location effect (lines 87-104). -/
def locationEffect (r : SensorResult) : Effect Unit :=
  andFinally
    (orCatch (andThen (getCurrentPosition r) onLocation)
      (fun e s => (.ok (), consoleLog (.error e) s)))
    (fun s => (.ok (), setLocationLoading false s))

/-- What can happen to a mounted `Map`. -/
inductive Event where
  /-- The geolocation lookup ends. -/
  | sensor (r : SensorResult)
  /-- The request of `tournaments.json` ends with parsed data (line 81). -/
  | feed (data : JSValue)
  /-- The user moves the map to a new centre. -/
  | pan (latitude longitude : JSNum)

/-- One event.  A promise settles once: a second sensor result is dropped. -/
def step (s : MapState) : Event → MapState
  | .sensor r =>
    if s.sensorSettled then s
    else
      match locationEffect r { s with sensorSettled := true } with
      | (.ok _, s') => s'
      | (.error e, s') => { s' with unhandled := s'.unhandled ++ [e] }
  | .feed data => setTourneyData data s
  | .pan latitude longitude => { s with view := .arr [.num latitude, .num longitude] }

/-- The first render of `Map` (lines 69-76 and 109-111): the state variables
take their initial values and both effects start.  The view is placed for a
centre of two numbers; with any other centre Leaflet throws in this render
(`Invalid LatLng object`) and nothing mounts, which is not modelled. -/
def mount (m : ModuleState) : MapState :=
  { tourneyData := .arr [],
    mapCenter := m.initialLocation,
    locationLoading := !m.locationCacheHit,
    effectLocationLoading := !m.locationCacheHit,
    sensorSettled := false,
    view := m.initialLocation,
    storage := m.storage,
    console := m.console,
    alerts := [],
    unhandled := [] }

/-- The successive states of a `Map` under a list of events, the starting
state first. -/
def trace (s : MapState) : List Event → List MapState
  | [] => [s]
  | e :: es => s :: trace (step s e) es

/-- The state after a list of events. -/
def run (s : MapState) (es : List Event) : MapState := es.foldl step s

/-- A session: the module loads against the storage, then `Map` mounts. -/
def startSession (storage : Storage) : Except JSError MapState :=
  match loadModule storage with
  | .ok m => .ok (mount m)
  | .error e => .error e

namespace JSON

/-- What follows a number inside an array: a comma or the closing bracket. -/
def Delimited (rest : List Char) : Prop :=
  ∃ c r, rest = c :: r ∧ (c = ',' ∨ c = ']')

end JSON

/-! ## Vocabulary of the properties -/

/-- The array `[lat, lng]`. -/
def latLng (lat lng : JSNum) : JSValue := .arr [.num lat, .num lng]

/-- Whether an event is a result of the geolocation lookup. -/
def Event.isSensor : Event → Bool
  | .sensor _ => true
  | _ => false

/-- Whether a result of the geolocation lookup is a failure. -/
def SensorResult.isFailure : SensorResult → Bool
  | .position _ _ => false
  | _ => true

/-- The number of steps of a trace at which `locationLoading` goes from true
to false. -/
def settlements : List MapState → Nat
  | a :: b :: rest =>
    (if a.locationLoading = true ∧ b.locationLoading = false then 1 else 0)
      + settlements (b :: rest)
  | _ => 0

/-- The number of steps of a trace at which `locationLoading` goes from false
to true. -/
def reversions : List MapState → Nat
  | a :: b :: rest =>
    (if a.locationLoading = false ∧ b.locationLoading = true then 1 else 0)
      + reversions (b :: rest)
  | _ => 0

/-- In the words of the specification: whether the text is the JSON encoding
of a two-element numeric array. -/
def isCoordinateText (text : String) : Bool :=
  match JSON.parse text with
  | .ok (.arr [.num _, .num _]) => true
  | _ => false

/-- Whether the stored text is one that `JSON.parse` rejects or whose value
the destructuring pattern cannot iterate over. -/
def unreadable (text : String) : Bool :=
  match JSON.parse text with
  | .error _ => true
  | .ok v =>
    match iterate v with
    | .error _ => true
    | .ok _ => false

/-- The number of an integer literal. -/
def JSNum.ofInt (n : Int) : JSNum := ⟨n, 0, Or.inl rfl⟩

/-! ## Digits: what `stringify` writes, `parse` reads back -/

namespace JSON

theorem digitChar_isDigit (d : Nat) (h : d < 10) : (digitChar d).isDigit = true := by
  interval_cases d <;> rfl

theorem digitVal_digitChar (d : Nat) (h : d < 10) : digitVal (digitChar d) = d := by
  interval_cases d <;> rfl

theorem lastDigits_length (k n : Nat) : (lastDigits k n).length = k := by
  induction k generalizing n with
  | zero => rfl
  | succ k ih => simp [lastDigits, ih]

theorem lastDigits_isDigit (k n : Nat) : ∀ c ∈ lastDigits k n, c.isDigit = true := by
  induction k generalizing n with
  | zero => intro c hc; simp [lastDigits] at hc
  | succ k ih =>
    intro c hc
    simp only [lastDigits, List.mem_append, List.mem_singleton] at hc
    rcases hc with hc | hc
    · exact ih _ c hc
    · subst hc
      exact digitChar_isDigit _ (Nat.mod_lt _ (by decide))

theorem digitsToNat_append_singleton (ds : List Char) (c : Char) :
    digitsToNat (ds ++ [c]) = 10 * digitsToNat ds + digitVal c := by
  simp [digitsToNat, List.foldl_append]

theorem digitsToNat_lastDigits (k n : Nat) : digitsToNat (lastDigits k n) = n % 10 ^ k := by
  induction k generalizing n with
  | zero => simp [lastDigits, digitsToNat, Nat.mod_one]
  | succ k ih =>
    rw [lastDigits, digitsToNat_append_singleton, ih,
      digitVal_digitChar _ (Nat.mod_lt _ (by decide)), pow_succ, mul_comm (10 ^ k) 10,
      Nat.mod_mul, add_comm]

theorem digitsToNat_append (as bs : List Char) :
    digitsToNat (as ++ bs) = digitsToNat as * 10 ^ bs.length + digitsToNat bs := by
  induction bs using List.reverseRecOn with
  | nil => simp [digitsToNat]
  | append_singleton bs c ih =>
    rw [← List.append_assoc, digitsToNat_append_singleton, ih, digitsToNat_append_singleton,
      List.length_append, List.length_singleton, pow_succ]
    ring

theorem lastDigits_succ_head (k n : Nat) :
    lastDigits (k + 1) n = digitChar (n / 10 ^ k % 10) :: lastDigits k n := by
  induction k generalizing n with
  | zero => simp [lastDigits]
  | succ k ih =>
    have e : lastDigits (k + 1) n = lastDigits k (n / 10) ++ [digitChar (n % 10)] := rfl
    rw [lastDigits, ih (n / 10), List.cons_append, ← e, Nat.div_div_eq_div_mul,
      pow_succ, mul_comm (10 ^ k) 10]

theorem takeDigits_append (ds rest : List Char) (hds : ∀ c ∈ ds, c.isDigit = true)
    (hrest : ∀ c r, rest = c :: r → c.isDigit = false) :
    takeDigits (ds ++ rest) = (ds, rest) := by
  induction ds with
  | nil =>
    cases rest with
    | nil => rfl
    | cons c r => simp [takeDigits, hrest c r rfl]
  | cons d ds ih =>
    have hd : d.isDigit = true := hds d (List.mem_cons_self _ _)
    have ih' := ih (fun c hc => hds c (List.mem_cons_of_mem _ hc))
    simp [takeDigits, hd, ih']

theorem numDigits_pos (fuel n : Nat) : 0 < numDigits fuel n := by
  cases fuel with
  | zero => simp [numDigits]
  | succ fuel =>
    unfold numDigits
    split <;> omega

theorem lt_pow_numDigits (fuel n : Nat) (h : n ≤ fuel) : n < 10 ^ numDigits fuel n := by
  induction fuel generalizing n with
  | zero =>
    have : n = 0 := by omega
    subst this
    simp [numDigits]
  | succ fuel ih =>
    unfold numDigits
    split
    · simpa using ‹n < 10›
    · have h1 : n / 10 < 10 ^ numDigits fuel (n / 10) := ih _ (by omega)
      rw [pow_succ]
      omega

theorem pow_numDigits_le (fuel n : Nat) (h : n ≤ fuel) (h10 : 10 ≤ n) :
    10 ^ (numDigits fuel n - 1) ≤ n := by
  induction fuel generalizing n with
  | zero => omega
  | succ fuel ih =>
    unfold numDigits
    rw [if_neg (by omega)]
    simp only [Nat.add_sub_cancel]
    by_cases h100 : 10 ≤ n / 10
    · have h1 := ih (n / 10) (by omega) h100
      have hp := numDigits_pos fuel (n / 10)
      have : numDigits fuel (n / 10) = (numDigits fuel (n / 10) - 1) + 1 := by omega
      rw [this, pow_succ]
      omega
    · have : numDigits fuel (n / 10) = 1 := by
        cases fuel with
        | zero => simp [numDigits]
        | succ fuel =>
          unfold numDigits
          rw [if_pos (by omega)]
      rw [this]
      omega

theorem natDigits_isDigit (n : Nat) : ∀ c ∈ natDigits n, c.isDigit = true :=
  lastDigits_isDigit _ _

theorem digitsToNat_natDigits (n : Nat) : digitsToNat (natDigits n) = n := by
  rw [natDigits, digitsToNat_lastDigits]
  exact Nat.mod_eq_of_lt (lt_pow_numDigits n n le_rfl)

theorem natDigits_eq_cons (n : Nat) :
    ∃ c tl, natDigits n = c :: tl ∧ c.isDigit = true := by
  have hp := numDigits_pos n n
  obtain ⟨k, hk⟩ : ∃ k, numDigits n n = k + 1 := ⟨numDigits n n - 1, by omega⟩
  refine ⟨digitChar (n / 10 ^ k % 10), lastDigits k n, ?_, ?_⟩
  · rw [natDigits, hk, lastDigits_succ_head]
  · exact digitChar_isDigit _ (Nat.mod_lt _ (by decide))

theorem validInt_natDigits (n : Nat) : validInt (natDigits n) = true := by
  have hp := numDigits_pos n n
  obtain ⟨k, hk⟩ : ∃ k, numDigits n n = k + 1 := ⟨numDigits n n - 1, by omega⟩
  rw [natDigits, hk, lastDigits_succ_head]
  cases k with
  | zero => rfl
  | succ k =>
    rw [lastDigits_succ_head]
    simp only [validInt, bne_iff_ne, ne_eq]
    have h10 : 10 ≤ n := by
      by_contra hlt
      have : numDigits n n = 1 := by
        cases n with
        | zero => rfl
        | succ n =>
          unfold numDigits
          rw [if_pos (by omega)]
      omega
    have hlo := pow_numDigits_le n n le_rfl h10
    have hhi := lt_pow_numDigits n n le_rfl
    rw [hk] at hlo hhi
    simp only [Nat.add_sub_cancel] at hlo
    have hq1 : 1 ≤ n / 10 ^ (k + 1) := (Nat.one_le_div_iff (by positivity)).2 hlo
    have hq2 : n / 10 ^ (k + 1) < 10 := by
      rw [Nat.div_lt_iff_lt_mul (by positivity)]
      calc n < 10 ^ (k + 1 + 1) := hhi
        _ = 10 * 10 ^ (k + 1) := by rw [pow_succ, mul_comm]
    rw [Nat.mod_eq_of_lt hq2]
    generalize n / 10 ^ (k + 1) = q at hq1 hq2
    interval_cases q <;> decide

/-! ## Round trip of an array of numbers -/

theorem Delimited.not_digit {rest : List Char} (h : Delimited rest) :
    ∀ c r, rest = c :: r → c.isDigit = false := by
  obtain ⟨c, r, rfl, hc⟩ := h
  intro c' r' e
  injection e with e1 e2
  subst e1
  rcases hc with rfl | rfl <;> rfl

theorem parseFrac_delimited {rest : List Char} (h : Delimited rest) :
    parseFrac rest = some ([], rest) := by
  obtain ⟨c, r, rfl, hc⟩ := h
  rcases hc with rfl | rfl <;> rfl

theorem parseExp_delimited {rest : List Char} (h : Delimited rest) :
    parseExp rest = some (0, rest) := by
  obtain ⟨c, r, rfl, hc⟩ := h
  rcases hc with rfl | rfl <;> rfl

theorem skipWs_delimited {rest : List Char} (h : Delimited rest) : skipWs rest = rest := by
  obtain ⟨c, r, rfl, hc⟩ := h
  rcases hc with rfl | rfl <;> rfl

theorem parseFrac_dot (ds rest : List Char) (hne : ds ≠ [])
    (hds : ∀ c ∈ ds, c.isDigit = true) (h : ∀ c r, rest = c :: r → c.isDigit = false) :
    parseFrac ('.' :: (ds ++ rest)) = some (ds, rest) := by
  have ht := takeDigits_append ds rest hds h
  cases ds with
  | nil => exact absurd rfl hne
  | cons d ds =>
    show (match takeDigits (d :: ds ++ rest) with
      | ([], _) => none
      | (ds, rest') => some (ds, rest')) = _
    rw [ht]

theorem normalize_of_normal (m : Int) (e : Nat) (h : e = 0 ∨ m % 10 ≠ 0) :
    normalize m e = (m, e) := by
  cases e with
  | zero => rfl
  | succ e =>
    have hm : m % 10 ≠ 0 := by
      rcases h with h | h
      · omega
      · exact h
    simp [normalize, hm]

theorem ofDecimal_self (x : JSNum) : JSNum.ofDecimal x.mantissa x.scale = x := by
  cases x with
  | mk m e h => simp [JSNum.ofDecimal, normalize_of_normal m e h]

theorem unsignedToString_eq_cons (n scale : Nat) :
    ∃ c tl, unsignedToString n scale = c :: tl ∧ c.isDigit = true := by
  obtain ⟨c, tl, h, hc⟩ := natDigits_eq_cons (n / 10 ^ scale)
  exact ⟨c, tl ++ _, by rw [unsignedToString, h, List.cons_append], hc⟩

theorem parseUnsigned_unsignedToString (neg : Bool) (n scale : Nat) (rest : List Char)
    (h : Delimited rest) :
    parseUnsigned neg (unsignedToString n scale ++ rest)
      = some (JSNum.ofDecimal (if neg then -(n : Int) else (n : Int)) scale, rest) := by
  have hval : n / 10 ^ scale * 10 ^ scale + n % 10 ^ scale = n := Nat.div_add_mod' _ _
  by_cases hs : scale = 0
  · subst hs
    have ht := takeDigits_append (natDigits (n / 10 ^ 0)) rest (natDigits_isDigit _) h.not_digit
    simp only [unsignedToString, if_true, List.append_nil, parseUnsigned, ht,
      validInt_natDigits, parseFrac_delimited h, parseExp_delimited h]
    simp [mkNum, digitsToNat_natDigits]
  · have hrest' : ∀ c r, '.' :: (lastDigits scale (n % 10 ^ scale) ++ rest) = c :: r →
        c.isDigit = false := by
      intro c r e
      injection e with e1 e2
      subst e1; rfl
    have ht := takeDigits_append (natDigits (n / 10 ^ scale)) _ (natDigits_isDigit _) hrest'
    have hne : lastDigits scale (n % 10 ^ scale) ≠ [] := by
      intro e
      have := congrArg List.length e
      rw [lastDigits_length] at this
      exact hs this
    have hf := parseFrac_dot _ rest hne (lastDigits_isDigit _ _) h.not_digit
    simp only [unsignedToString, if_neg hs, List.append_assoc, List.cons_append, parseUnsigned,
      ht, validInt_natDigits, hf, parseExp_delimited h]
    have hF : n % 10 ^ scale % 10 ^ scale = n % 10 ^ scale := Nat.mod_mod _ _
    simp [mkNum, digitsToNat_append, digitsToNat_natDigits, digitsToNat_lastDigits,
      lastDigits_length, hF, hval]

theorem stripZeros_spec (fuel n : Nat) :
    n = (stripZeros fuel n).1 * 10 ^ (stripZeros fuel n).2 := by
  induction fuel generalizing n with
  | zero => simp [stripZeros]
  | succ fuel ih =>
    unfold stripZeros
    split
    · rename_i h
      have h1 := ih (n / 10)
      simp only [pow_succ]
      have h2 : n = n / 10 * 10 := by omega
      rw [← mul_assoc, ← h1]
      exact h2
    · simp

theorem stripZeros_of_mod (fuel n : Nat) (h : n % 10 ≠ 0) : stripZeros fuel n = (n, 0) := by
  cases fuel with
  | zero => rfl
  | succ fuel =>
    unfold stripZeros
    rw [if_neg (by omega)]

theorem natDigits_length (n : Nat) : (natDigits n).length = numDigits n n :=
  lastDigits_length _ _

theorem parseExp_exponent (e : Int) (rest : List Char) (h : Delimited rest) :
    parseExp ('e' :: (if e < 0 then '-' else '+') :: (natDigits e.natAbs ++ rest))
      = some (e, rest) := by
  have ht := takeDigits_append (natDigits e.natAbs) rest (natDigits_isDigit _) h.not_digit
  obtain ⟨c, tl, hc, _⟩ := natDigits_eq_cons e.natAbs
  have hv := digitsToNat_natDigits e.natAbs
  rw [hc] at ht hv
  rw [List.cons_append] at ht
  by_cases he : e < 0
  · simp [parseExp, he, hc, ht, hv]
    rw [abs_of_neg he, neg_neg]
  · have hm : ((e.natAbs : Nat) : Int) = e := by omega
    simp [parseExp, he, hc, ht, hv, hm]

theorem exponentToString_eq_cons (s : Nat) (e : Int) :
    ∃ c tl, exponentToString s e = c :: tl ∧ c.isDigit = true := by
  obtain ⟨c, tl, hc, hd⟩ := natDigits_eq_cons s
  exact ⟨c, _, by rw [exponentToString, hc]; rfl, hd⟩

theorem parseUnsigned_exponentToString (neg : Bool) (s : Nat) (e : Int) (rest : List Char)
    (h : Delimited rest) :
    parseUnsigned neg (exponentToString s e ++ rest)
      = some (mkNum neg s (numDigits s s - 1) e, rest) := by
  obtain ⟨d, ds, hc, hd⟩ := natDigits_eq_cons s
  have hlen := natDigits_length s
  have hval := digitsToNat_natDigits s
  have hall := natDigits_isDigit s
  rw [hc] at hlen hval hall
  have hds : ∀ c ∈ ds, c.isDigit = true := fun c hc' => hall c (List.mem_cons_of_mem _ hc')
  have hk : numDigits s s - 1 = ds.length := by
    simp only [List.length_cons] at hlen
    omega
  have hexp := parseExp_exponent e rest h
  have hnd : ∀ c r, 'e' :: (if e < 0 then '-' else '+') :: (natDigits e.natAbs ++ rest) = c :: r →
      c.isDigit = false := by
    intro c r heq
    injection heq with h1 h2
    subst h1
    rfl
  by_cases hnil : ds = []
  · subst hnil
    have ht : takeDigits ([d] ++ 'e' :: (if e < 0 then '-' else '+')
        :: (natDigits e.natAbs ++ rest))
        = ([d], 'e' :: (if e < 0 then '-' else '+') :: (natDigits e.natAbs ++ rest)) :=
      takeDigits_append [d] _ (fun c hc' => hall c hc') hnd
    have hf : parseFrac ('e' :: (if e < 0 then '-' else '+') :: (natDigits e.natAbs ++ rest))
        = some ([], 'e' :: (if e < 0 then '-' else '+') :: (natDigits e.natAbs ++ rest)) := by
      simp [parseFrac]
    simp only [List.singleton_append] at ht
    simp only [exponentToString, hc, if_true, List.cons_append, List.nil_append, parseUnsigned,
      ht, validInt, hf, hexp, List.append_nil, hval, List.length_nil, hk]
  · have hnd' : ∀ c r, '.' :: (ds ++ 'e' :: (if e < 0 then '-' else '+')
        :: (natDigits e.natAbs ++ rest)) = c :: r → c.isDigit = false := by
      intro c r heq
      injection heq with h1 h2
      subst h1
      rfl
    have ht : takeDigits ([d] ++ '.' :: (ds ++ 'e' :: (if e < 0 then '-' else '+')
        :: (natDigits e.natAbs ++ rest)))
        = ([d], '.' :: (ds ++ 'e' :: (if e < 0 then '-' else '+')
            :: (natDigits e.natAbs ++ rest))) :=
      takeDigits_append [d] _
        (fun c hc' => hall c (by
          rw [List.mem_singleton] at hc'
          rw [hc']
          exact List.mem_cons_self _ _)) hnd'
    have hf := parseFrac_dot ds _ hnil hds hnd
    simp only [List.singleton_append] at ht
    simp only [exponentToString, hc, if_neg hnil, List.cons_append, List.append_assoc,
      parseUnsigned, ht, validInt, hf, hexp, List.singleton_append, hval, hk, if_true,
      List.nil_append]

theorem mkNum_exponent (neg : Bool) (a scale : Nat) (hn : scale = 0 ∨ a % 10 ≠ 0) :
    mkNum neg (stripZeros a a).1
        (numDigits (stripZeros a a).1 (stripZeros a a).1 - 1)
        (((numDigits (stripZeros a a).1 (stripZeros a a).1 + (stripZeros a a).2 : Nat) : Int)
          - (scale : Int) - 1)
      = JSNum.ofDecimal (if neg then -(a : Int) else (a : Int)) scale := by
  have hspec := stripZeros_spec a a
  have hk := numDigits_pos (stripZeros a a).1 (stripZeros a a).1
  rcases hn with hs | hm
  · subst hs
    generalize (stripZeros a a).1 = s at hspec hk ⊢
    generalize (stripZeros a a).2 = z at hspec ⊢
    generalize numDigits s s = k at hk ⊢
    unfold mkNum
    by_cases hz : z = 0
    · subst hz
      have hs : s = a := by simpa using hspec.symm
      subst hs
      have h1 : ((k + 0 : Nat) : Int) - ((0 : Nat) : Int) - 1 ≤ ((k - 1 : Nat) : Int) := by omega
      have h2 : (((k - 1 : Nat) : Int) - (((k + 0 : Nat) : Int) - ((0 : Nat) : Int) - 1)).toNat
          = 0 := by omega
      simp only [h1, if_true, h2]
    · have h1 : ¬ (((k + z : Nat) : Int) - ((0 : Nat) : Int) - 1 ≤ ((k - 1 : Nat) : Int)) := by
        omega
      have h2 : ((((k + z : Nat) : Int) - ((0 : Nat) : Int) - 1) - ((k - 1 : Nat) : Int)).toNat
          = z := by omega
      have h3 : ((s : Int) * 10 ^ z) = (a : Int) := by
        rw [hspec]
        push_cast
        rfl
      simp only [h1, if_false, h2]
      cases neg
      · simp [h3]
      · simp only [if_true, neg_mul, h3]
  · rw [stripZeros_of_mod a a hm] at hk ⊢
    simp only at hk ⊢
    generalize numDigits a a = k at hk ⊢
    unfold mkNum
    have h1 : ((k + 0 : Nat) : Int) - (scale : Int) - 1 ≤ ((k - 1 : Nat) : Int) := by omega
    have h2 : (((k - 1 : Nat) : Int) - (((k + 0 : Nat) : Int) - (scale : Int) - 1)).toNat
        = scale := by omega
    simp only [h1, if_true, h2]

theorem magnitudeToString_eq_cons (a scale : Nat) :
    ∃ c tl, magnitudeToString a scale = c :: tl ∧ c.isDigit = true := by
  unfold magnitudeToString
  dsimp only
  split
  · exact unsignedToString_eq_cons a scale
  · exact exponentToString_eq_cons _ _

theorem parseUnsigned_magnitudeToString (neg : Bool) (a scale : Nat) (rest : List Char)
    (h : Delimited rest) (hn : scale = 0 ∨ a % 10 ≠ 0) :
    parseUnsigned neg (magnitudeToString a scale ++ rest)
      = some (JSNum.ofDecimal (if neg then -(a : Int) else (a : Int)) scale, rest) := by
  unfold magnitudeToString
  dsimp only
  split
  · exact parseUnsigned_unsignedToString neg a scale rest h
  · rw [parseUnsigned_exponentToString neg _ _ rest h, mkNum_exponent neg a scale hn]

theorem parseNumber_numberToString (x : JSNum) (rest : List Char) (h : Delimited rest) :
    parseNumber (numberToString x ++ rest) = some (x, rest) := by
  have hn : x.scale = 0 ∨ x.mantissa.natAbs % 10 ≠ 0 := by
    rcases x.normal with h0 | h1
    · exact Or.inl h0
    · exact Or.inr (by omega)
  unfold numberToString
  by_cases hneg : x.mantissa < 0
  · have hm : -((x.mantissa.natAbs : Nat) : Int) = x.mantissa := by omega
    simp only [if_pos hneg, List.cons_append, List.nil_append, parseNumber]
    rw [parseUnsigned_magnitudeToString true _ _ _ h hn]
    simp only [if_true, hm, ofDecimal_self]
  · have hm : ((x.mantissa.natAbs : Nat) : Int) = x.mantissa := by omega
    obtain ⟨c, tl, hc, hd⟩ := magnitudeToString_eq_cons x.mantissa.natAbs x.scale
    have hne : c ≠ '-' := by
      rintro rfl
      exact absurd hd (by decide)
    have hp : parseNumber (magnitudeToString x.mantissa.natAbs x.scale ++ rest)
        = parseUnsigned false (magnitudeToString x.mantissa.natAbs x.scale ++ rest) := by
      rw [hc, List.cons_append]
      unfold parseNumber
      split
      · rename_i heq
        injection heq with h1 h2
        exact absurd h1 hne
      · rfl
    simp only [if_neg hneg, List.nil_append, hp]
    rw [parseUnsigned_magnitudeToString false _ _ _ h hn]
    simp [hm, ofDecimal_self]

theorem numberToString_eq_cons (x : JSNum) :
    ∃ c tl, numberToString x = c :: tl ∧ (c = '-' ∨ c.isDigit = true) := by
  unfold numberToString
  by_cases hneg : x.mantissa < 0
  · exact ⟨'-', magnitudeToString x.mantissa.natAbs x.scale, by simp [hneg], Or.inl rfl⟩
  · obtain ⟨c, tl, hc, hd⟩ := magnitudeToString_eq_cons x.mantissa.natAbs x.scale
    exact ⟨c, tl, by simp [hneg, hc], Or.inr hd⟩

theorem numberHead_facts (c : Char) (hd : c = '-' ∨ c.isDigit = true) :
    isWs c = false ∧ c ≠ '[' ∧ c ≠ '{' ∧ c ≠ '"' ∧ c ≠ ']' := by
  have key : ∀ d : Char, (d = '-' ∨ d.isDigit = true) → d ≠ ' ' ∧ d ≠ '\t' ∧ d ≠ '\n' ∧
      d ≠ '\r' ∧ d ≠ '[' ∧ d ≠ '{' ∧ d ≠ '"' ∧ d ≠ ']' := by
    intro d h
    refine ⟨?_, ?_, ?_, ?_, ?_, ?_, ?_, ?_⟩ <;>
    · rintro rfl
      rcases h with h | h <;> exact absurd h (by decide)
  obtain ⟨h1, h2, h3, h4, h5, h6, h7, h8⟩ := key c hd
  exact ⟨by simp [isWs, h1, h2, h3, h4], h5, h6, h7, h8⟩

theorem parseValue_numberToString (fuel : Nat) (x : JSNum) (rest : List Char)
    (h : Delimited rest) :
    parseValue (fuel + 1) (skipWs (numberToString x ++ rest)) = some (.num x, rest) := by
  have hp := parseNumber_numberToString x rest h
  obtain ⟨c, tl, hc, hd⟩ := numberToString_eq_cons x
  rw [hc, List.cons_append] at hp ⊢
  obtain ⟨hws, h1, h2, h3, _⟩ := numberHead_facts c hd
  have hskip : skipWs (c :: (tl ++ rest)) = c :: (tl ++ rest) := by simp [skipWs, hws]
  rw [hskip, parseValue, if_neg h1, if_neg h2, if_neg h3, if_pos hd, hp]

theorem parseValue_pair (fuel : Nat) (a b : JSNum) :
    parseValue (fuel + 4) ('[' :: elementsToString [a, b])
      = some (.arr [.num a, .num b], []) := by
  have hb : Delimited [']'] := ⟨']', [], rfl, Or.inr rfl⟩
  have ha : Delimited (',' :: (numberToString b ++ [']'])) := ⟨',', _, rfl, Or.inl rfl⟩
  have e1 := parseValue_numberToString (fuel + 1) a _ ha
  have e2 := parseValue_numberToString fuel b _ hb
  obtain ⟨c, tl, hc, hd⟩ := numberToString_eq_cons a
  obtain ⟨hws, _, _, _, h5⟩ := numberHead_facts c hd
  have hskip : skipWs (numberToString a ++ ',' :: (numberToString b ++ [']']))
      = numberToString a ++ ',' :: (numberToString b ++ [']']) := by
    rw [hc, List.cons_append]
    simp [skipWs, hws]
  have hnb : ∀ r, numberToString a ++ ',' :: (numberToString b ++ [']']) ≠ ']' :: r := by
    intro r e
    rw [hc, List.cons_append] at e
    injection e with e1 e2
    exact h5 e1
  have hel : parseElements (fuel + 3) (numberToString a ++ ',' :: (numberToString b ++ [']']))
      = some ([.num a, .num b], []) := by
    rw [parseElements, e1]
    simp only [skipWs_delimited ha]
    rw [parseElements, e2]
    simp only [skipWs_delimited hb]
  simp only [elementsToString, parseValue, if_true, hskip]
  rw [hel]

/-- Reading back what `stringify` wrote for a pair of numbers gives the pair. -/
theorem parse_stringify_pair (a b : JSNum) :
    parse (stringify [a, b]) = .ok (.arr [.num a, .num b]) := by
  have hfuel : ∃ k, fuelFor (stringify [a, b]).data = k + 4 :=
    ⟨fuelFor (stringify [a, b]).data - 4, by simp [fuelFor, stringify]⟩
  obtain ⟨k, hk⟩ := hfuel
  have hskip : skipWs (stringify [a, b]).data = '[' :: elementsToString [a, b] := rfl
  rw [parse, hk, hskip, parseValue_pair]
  rfl

end JSON

/-! ## The recursion budget of `parse` is enough -/

namespace JSON

theorem skipWs_length_le (cs : List Char) : (skipWs cs).length ≤ cs.length := by
  induction cs with
  | nil => simp [skipWs]
  | cons c cs ih =>
    unfold skipWs
    split
    · simp only [List.length_cons]; omega
    · exact le_rfl

theorem takeDigits_length_le (cs : List Char) : (takeDigits cs).2.length ≤ cs.length := by
  induction cs with
  | nil => simp [takeDigits]
  | cons c cs ih =>
    unfold takeDigits
    split
    · simp only [List.length_cons]; omega
    · exact le_rfl

theorem parseFrac_length_le (cs ds rest : List Char) (h : parseFrac cs = some (ds, rest)) :
    rest.length ≤ cs.length := by
  unfold parseFrac at h
  split at h
  · rename_i tl
    have ht := takeDigits_length_le tl
    split at h
    · exact absurd h (by simp)
    · rename_i ds' rest' _ heq
      injection h with h
      injection h with h1 h2
      subst h2
      rw [heq] at ht
      simp only [List.length_cons]
      exact Nat.le_succ_of_le ht
  · injection h with h
    injection h with h1 h2
    subst h2
    exact le_rfl

theorem parseExp_length_le (cs rest : List Char) (e : Int) (h : parseExp cs = some (e, rest)) :
    rest.length ≤ cs.length := by
  have signed : ∀ (neg : Bool) (tl : List Char),
      (match takeDigits tl with
        | ([], _) => none
        | (ds, rest') =>
          some ((if neg then -(digitsToNat ds : Int) else (digitsToNat ds : Int)), rest'))
        = some (e, rest) → rest.length ≤ tl.length := by
    intro neg tl h
    have ht := takeDigits_length_le tl
    split at h
    · exact absurd h (by simp)
    · rename_i ds' rest' _ heq
      injection h with h
      injection h with h1 h2
      subst h2
      rw [heq] at ht
      exact ht
  unfold parseExp at h
  dsimp only at h
  split at h
  · rename_i c tl
    split at h
    · split at h
      · have := signed _ _ h
        simp only [List.length_cons]
        omega
      · have := signed _ _ h
        simp only [List.length_cons]
        omega
      · have := signed _ _ h
        simp only [List.length_cons]
        omega
    · injection h with h
      injection h with h1 h2
      subst h2
      exact le_rfl
  · injection h with h
    injection h with h1 h2
    subst h2
    exact le_rfl

theorem parseUnsigned_length_le (neg : Bool) (cs rest : List Char) (x : JSNum)
    (h : parseUnsigned neg cs = some (x, rest)) : rest.length ≤ cs.length := by
  unfold parseUnsigned at h
  have ht := takeDigits_length_le cs
  split at h
  rename_i ints cs2 heq
  rw [heq] at ht
  split at h
  · split at h
    · exact absurd h (by simp)
    · rename_i fracs cs3 hf
      have h3 := parseFrac_length_le _ _ _ hf
      split at h
      · exact absurd h (by simp)
      · rename_i e cs4 he
        have h4 := parseExp_length_le _ _ _ he
        injection h with h
        injection h with h1 h2
        subst h2
        simp only at ht
        omega
  · exact absurd h (by simp)

theorem parseNumber_length_le (cs rest : List Char) (x : JSNum)
    (h : parseNumber cs = some (x, rest)) : rest.length ≤ cs.length := by
  unfold parseNumber at h
  split at h
  · have := parseUnsigned_length_le _ _ _ _ h
    simp only [List.length_cons]
    omega
  · exact parseUnsigned_length_le _ _ _ _ h

theorem parseLiteral_length_le (cs rest : List Char) (v : JSValue)
    (h : parseLiteral cs = some (v, rest)) : rest.length ≤ cs.length := by
  unfold parseLiteral at h
  split at h
  · injection h with h
    injection h with h1 h2
    subst h2
    simp only [List.length_cons]
    omega
  · injection h with h
    injection h with h1 h2
    subst h2
    simp only [List.length_cons]
    omega
  · injection h with h
    injection h with h1 h2
    subst h2
    simp only [List.length_cons]
    omega
  · exact absurd h (by simp)

theorem parseString_length_le (cs acc : List Char) (s : String) (rest : List Char)
    (h : parseString cs acc = some (s, rest)) : rest.length ≤ cs.length := by
  induction cs, acc using parseString.induct
  all_goals (unfold parseString at h)
  all_goals (simp_all)
  all_goals (try omega)
  rename_i u _ hu ih
  have hu' : ¬(55296 ≤ u ∧ u < 57344) := by omega
  rw [if_neg hu'] at h
  have := ih h
  omega

theorem parse_length_le (fuel : Nat) :
    (∀ cs v rest, parseValue fuel cs = some (v, rest) → rest.length ≤ cs.length)
    ∧ (∀ cs vs rest, parseElements fuel cs = some (vs, rest) → rest.length ≤ cs.length)
    ∧ (∀ cs ms rest, parseMembers fuel cs = some (ms, rest) → rest.length ≤ cs.length) := by
  induction fuel with
  | zero =>
    refine ⟨?_, ?_, ?_⟩ <;> intro cs v rest h
    · simp [parseValue] at h
    · simp [parseElements] at h
    · simp [parseMembers] at h
  | succ fuel ih =>
    obtain ⟨ihV, ihE, ihM⟩ := ih
    refine ⟨?_, ?_, ?_⟩
    · intro cs v rest h
      cases cs with
      | nil => simp [parseValue] at h
      | cons c cs =>
        have hws := skipWs_length_le cs
        rw [parseValue] at h
        split at h
        · split at h
          · rename_i r heq
            injection h with h
            injection h with h1 h2
            subst h2
            rw [heq] at hws
            simp only [List.length_cons] at hws ⊢
            omega
          · split at h
            · exact absurd h (by simp)
            · rename_i xs r hE
              have := ihE _ _ _ hE
              injection h with h
              injection h with h1 h2
              subst h2
              simp only [List.length_cons]
              omega
        · split at h
          · split at h
            · rename_i r heq
              injection h with h
              injection h with h1 h2
              subst h2
              rw [heq] at hws
              simp only [List.length_cons] at hws ⊢
              omega
            · split at h
              · exact absurd h (by simp)
              · rename_i ms r hM
                have := ihM _ _ _ hM
                injection h with h
                injection h with h1 h2
                subst h2
                simp only [List.length_cons]
                omega
          · split at h
            · split at h
              · exact absurd h (by simp)
              · rename_i str r hS
                have := parseString_length_le _ _ _ _ hS
                injection h with h
                injection h with h1 h2
                subst h2
                simp only [List.length_cons]
                omega
            · split at h
              · split at h
                · exact absurd h (by simp)
                · rename_i x r hN
                  have := parseNumber_length_le _ _ _ hN
                  injection h with h
                  injection h with h1 h2
                  subst h2
                  exact this
              · exact parseLiteral_length_le _ _ _ h
    · intro cs vs rest h
      have hws := skipWs_length_le cs
      rw [parseElements] at h
      split at h
      · exact absurd h (by simp)
      · rename_i v r hV
        have h1 := ihV _ _ _ hV
        have hws' := skipWs_length_le r
        split at h
        · rename_i r' heq
          rw [heq] at hws'
          simp only [List.length_cons] at hws'
          split at h
          · exact absurd h (by simp)
          · rename_i vs' r'' hE
            have := ihE _ _ _ hE
            injection h with h
            injection h with h2 h3
            subst h3
            omega
        · rename_i r' heq
          rw [heq] at hws'
          simp only [List.length_cons] at hws'
          injection h with h
          injection h with h2 h3
          subst h3
          omega
        · exact absurd h (by simp)
    · intro cs ms rest h
      have hws := skipWs_length_le cs
      rw [parseMembers] at h
      split at h
      · rename_i r0 heq0
        rw [heq0] at hws
        simp only [List.length_cons] at hws
        split at h
        · exact absurd h (by simp)
        · rename_i k r1 hS
          have h1 := parseString_length_le _ _ _ _ hS
          have hws1 := skipWs_length_le r1
          split at h
          · rename_i r2 heq2
            rw [heq2] at hws1
            simp only [List.length_cons] at hws1
            have hws2 := skipWs_length_le r2
            split at h
            · exact absurd h (by simp)
            · rename_i v r3 hV
              have h3 := ihV _ _ _ hV
              have hws3 := skipWs_length_le r3
              split at h
              · rename_i r4 heq4
                rw [heq4] at hws3
                simp only [List.length_cons] at hws3
                split at h
                · exact absurd h (by simp)
                · rename_i ms' r5 hM
                  have := ihM _ _ _ hM
                  injection h with h
                  injection h with h4 h5
                  subst h5
                  omega
              · rename_i r4 heq4
                rw [heq4] at hws3
                simp only [List.length_cons] at hws3
                injection h with h
                injection h with h4 h5
                subst h5
                omega
              · exact absurd h (by simp)
          · exact absurd h (by simp)
      · exact absurd h (by simp)

theorem parse_fuel_succ (fuel : Nat) :
    (∀ cs, 2 * cs.length + 1 ≤ fuel → parseValue (fuel + 1) cs = parseValue fuel cs)
    ∧ (∀ cs, 2 * cs.length + 2 ≤ fuel → parseElements (fuel + 1) cs = parseElements fuel cs)
    ∧ (∀ cs, 2 * cs.length + 2 ≤ fuel → parseMembers (fuel + 1) cs = parseMembers fuel cs) := by
  induction fuel with
  | zero =>
    refine ⟨?_, ?_, ?_⟩ <;> intro cs h <;> omega
  | succ fuel ih =>
    obtain ⟨ihV, ihE, ihM⟩ := ih
    refine ⟨?_, ?_, ?_⟩
    · intro cs h
      cases cs with
      | nil => simp [parseValue]
      | cons c cs =>
        have hws := skipWs_length_le cs
        simp only [List.length_cons] at h
        conv_lhs => rw [parseValue]
        conv_rhs => rw [parseValue]
        generalize skipWs cs = r at hws
        have hE := ihE r (by omega)
        have hM := ihM r (by omega)
        by_cases h1 : c = '['
        · rw [if_pos h1, if_pos h1]
          split
          · rfl
          · rw [hE]
        · rw [if_neg h1, if_neg h1]
          by_cases h2 : c = '{'
          · rw [if_pos h2, if_pos h2]
            split
            · rfl
            · rw [hM]
          · rw [if_neg h2, if_neg h2]
    · intro cs h
      have hws := skipWs_length_le cs
      conv_lhs => rw [parseElements]
      conv_rhs => rw [parseElements]
      rw [ihV (skipWs cs) (by omega)]
      cases hV : parseValue fuel (skipWs cs) with
      | none => rfl
      | some p =>
        obtain ⟨v, rest⟩ := p
        have h1 := (parse_length_le fuel).1 _ _ _ hV
        have hws' := skipWs_length_le rest
        simp only
        split
        · rename_i r' heq
          rw [heq] at hws'
          simp only [List.length_cons] at hws'
          rw [ihE r' (by omega)]
        · rfl
        · rfl
    · intro cs h
      have hws := skipWs_length_le cs
      conv_lhs => rw [parseMembers]
      conv_rhs => rw [parseMembers]
      split
      · rename_i r0 heq0
        rw [heq0] at hws
        simp only [List.length_cons] at hws
        cases hS : parseString r0 [] with
        | none => rfl
        | some p =>
          obtain ⟨k, r1⟩ := p
          have h1 := parseString_length_le _ _ _ _ hS
          have hws1 := skipWs_length_le r1
          simp only
          split
          · rename_i r2 heq2
            rw [heq2] at hws1
            simp only [List.length_cons] at hws1
            have hws2 := skipWs_length_le r2
            rw [ihV (skipWs r2) (by omega)]
            cases hV : parseValue fuel (skipWs r2) with
            | none => rfl
            | some q =>
              obtain ⟨v, r3⟩ := q
              have h3 := (parse_length_le fuel).1 _ _ _ hV
              have hws3 := skipWs_length_le r3
              simp only
              split
              · rename_i r4 heq4
                rw [heq4] at hws3
                simp only [List.length_cons] at hws3
                rw [ihM r4 (by omega)]
              · rfl
              · rfl
          · rfl
      · rfl

/-- More fuel than `fuelFor` gives changes nothing: `parse` never stops for
want of fuel. -/
theorem parseValue_fuelFor (cs : List Char) (extra : Nat) :
    parseValue (fuelFor cs + extra) (skipWs cs) = parseValue (fuelFor cs) (skipWs cs) := by
  induction extra with
  | zero => rfl
  | succ extra ih =>
    have hws := skipWs_length_le cs
    rw [← Nat.add_assoc, (parse_fuel_succ (fuelFor cs + extra)).1 (skipWs cs)
      (by unfold fuelFor; omega), ih]

end JSON
/-! ## Facts about the storage and the module load -/

theorem Storage.getItem_setItem (st st' : Storage) (key value : String)
    (h : st.setItem key value = .ok st') : st'.getItem key = some value := by
  unfold Storage.setItem at h
  dsimp only at h
  split at h
  · injection h with h
    subst h
    simp [Storage.getItem]
  · exact absurd h (by simp)

/-- The module load when the key is not in the storage. -/
theorem loadModule_absent (storage : Storage)
    (h : storage.getItem LOCATION_CACHE_KEY = none) :
    loadModule storage = .ok
      { initialLocation := FALLBACK_INITIAL_LOCATION, locationCacheHit := false,
        storage := storage,
        console := [.text "User location not set in local storage."] } := by
  simp [loadModule, tryLoad, h]

/-- The module load when the stored text parses to an iterable value. -/
theorem loadModule_hit (storage : Storage) (text : String) (v : JSValue) (xs : List JSValue)
    (h : storage.getItem LOCATION_CACHE_KEY = some text) (hv : JSON.parse text = .ok v)
    (hx : iterate v = .ok xs) :
    loadModule storage = .ok
      { initialLocation := .arr [xs.getD 0 .undefined, xs.getD 1 .undefined],
        locationCacheHit := true, storage := storage, console := [] } := by
  simp [loadModule, tryLoad, h, hv, destructurePair, hx]

/-- The module load when the stored text makes `JSON.parse` or the
destructuring throw. -/
theorem loadModule_thrown (storage : Storage) (text : String)
    (h : storage.getItem LOCATION_CACHE_KEY = some text)
    (hbad : unreadable text = true) :
    ∃ e, loadModule storage = .ok
      { initialLocation := FALLBACK_INITIAL_LOCATION, locationCacheHit := false,
        storage := storage.clear,
        console :=
          [.text "Error while attempting to parse cached location from local storage:",
           .error e, .text "Local storage cleared."] } := by
  cases hv : JSON.parse text with
  | error e => exact ⟨e, by simp [loadModule, tryLoad, h, hv]⟩
  | ok v =>
    cases hx : iterate v with
    | error e => exact ⟨e, by simp [loadModule, tryLoad, h, hv, destructurePair, hx]⟩
    | ok xs => simp [unreadable, hv, hx] at hbad

/-- The module body never throws. -/
theorem loadModule_total (storage : Storage) : ∃ m, loadModule storage = .ok m := by
  unfold loadModule
  dsimp only
  split
  · exact ⟨_, rfl⟩
  · exact ⟨_, rfl⟩

/-! ## Facts about the steps of a mounted `Map` -/

theorem setLocationLoading_false (s : MapState) :
    (setLocationLoading false s).locationLoading = false
    ∧ (setLocationLoading false s).mapCenter = s.mapCenter
    ∧ (setLocationLoading false s).storage = s.storage
    ∧ (setLocationLoading false s).console = s.console
    ∧ (setLocationLoading false s).unhandled = s.unhandled
    ∧ (setLocationLoading false s).sensorSettled = s.sensorSettled
    ∧ (setLocationLoading false s).effectLocationLoading = s.effectLocationLoading := by
  unfold setLocationLoading
  split
  · rename_i h
    exact ⟨h, rfl, rfl, rfl, rfl, rfl, rfl⟩
  · exact ⟨rfl, rfl, rfl, rfl, rfl, rfl, rfl⟩

/-- A sensor result after the promise settled changes nothing. -/
theorem step_sensor_settled (s : MapState) (r : SensorResult) (h : s.sensorSettled = true) :
    step s (.sensor r) = s := by
  simp [step, h]

/-- The first sensor result, a position that the storage accepts. -/
theorem step_position_stored (s : MapState) (lat lng : JSNum) (storage : Storage)
    (h : s.sensorSettled = false)
    (hw : s.storage.setItem LOCATION_CACHE_KEY (JSON.stringify [lat, lng]) = .ok storage) :
    (step s (.sensor (.position lat lng))).mapCenter
        = (if s.effectLocationLoading then latLng lat lng else s.mapCenter)
    ∧ (step s (.sensor (.position lat lng))).storage = storage
    ∧ (step s (.sensor (.position lat lng))).locationLoading = false
    ∧ (step s (.sensor (.position lat lng))).unhandled = s.unhandled
    ∧ (step s (.sensor (.position lat lng))).sensorSettled = true := by
  cases hl : s.effectLocationLoading <;>
  · simp only [step, h, locationEffect, andFinally, orCatch, andThen, getCurrentPosition,
      onLocation, hw, hl, Bool.false_eq_true, if_false, if_true]
    have := setLocationLoading_false
    simp [this, setMapCenter, render, ViewChanger, consoleLog, latLng]

/-- The first sensor result, a position that the storage refuses. -/
theorem step_position_refused (s : MapState) (lat lng : JSNum) (e : JSError)
    (h : s.sensorSettled = false)
    (hw : s.storage.setItem LOCATION_CACHE_KEY (JSON.stringify [lat, lng]) = .error e) :
    (step s (.sensor (.position lat lng))).mapCenter = s.mapCenter
    ∧ (step s (.sensor (.position lat lng))).storage = s.storage
    ∧ (step s (.sensor (.position lat lng))).locationLoading = false
    ∧ (step s (.sensor (.position lat lng))).unhandled = s.unhandled
    ∧ (step s (.sensor (.position lat lng))).console = s.console ++ [.error e]
    ∧ (step s (.sensor (.position lat lng))).sensorSettled = true := by
  simp only [step, h, locationEffect, andFinally, orCatch, andThen, getCurrentPosition,
    onLocation, hw, Bool.false_eq_true, if_false]
  have := setLocationLoading_false
  simp [this, consoleLog]

/-- The first sensor result, a failure. -/
theorem step_failure (s : MapState) (r : SensorResult)
    (h : s.sensorSettled = false) (hr : r.isFailure = true) :
    (step s (.sensor r)).mapCenter = s.mapCenter
    ∧ (step s (.sensor r)).storage = s.storage
    ∧ (step s (.sensor r)).locationLoading = false
    ∧ (step s (.sensor r)).unhandled = s.unhandled
    ∧ (step s (.sensor r)).sensorSettled = true := by
  cases r with
  | position lat lng => exact absurd hr (by simp [SensorResult.isFailure])
  | failed e =>
    simp only [step, h, locationEffect, andFinally, orCatch, andThen, getCurrentPosition,
      Bool.false_eq_true, if_false]
    have := setLocationLoading_false
    simp [this, consoleLog]
  | unsupported =>
    simp only [step, h, locationEffect, andFinally, orCatch, andThen, getCurrentPosition,
      Bool.false_eq_true, if_false]
    have := setLocationLoading_false
    simp [this, consoleLog]

/-- The first sensor result always ends the loading state. -/
theorem step_sensor_settles (s : MapState) (r : SensorResult) (h : s.sensorSettled = false) :
    (step s (.sensor r)).locationLoading = false ∧ (step s (.sensor r)).sensorSettled = true := by
  cases r with
  | position lat lng =>
    cases hw : s.storage.setItem LOCATION_CACHE_KEY (JSON.stringify [lat, lng]) with
    | ok storage =>
      have := step_position_stored s lat lng storage h hw
      exact ⟨this.2.2.1, this.2.2.2.2⟩
    | error e =>
      have := step_position_refused s lat lng e h hw
      exact ⟨this.2.2.1, this.2.2.2.2.2⟩
  | failed e =>
    have := step_failure s (.failed e) h rfl
    exact ⟨this.2.2.1, this.2.2.2.2⟩
  | unsupported =>
    have := step_failure s .unsupported h rfl
    exact ⟨this.2.2.1, this.2.2.2.2⟩

/-- An event that is not a sensor result leaves the location state alone. -/
theorem step_other (s : MapState) (e : Event) (h : e.isSensor = false) :
    (step s e).mapCenter = s.mapCenter
    ∧ (step s e).locationLoading = s.locationLoading
    ∧ (step s e).effectLocationLoading = s.effectLocationLoading
    ∧ (step s e).sensorSettled = s.sensorSettled
    ∧ (step s e).storage = s.storage
    ∧ (step s e).unhandled = s.unhandled := by
  cases e with
  | sensor r => exact absurd h (by simp [Event.isSensor])
  | feed data => exact ⟨rfl, rfl, rfl, rfl, rfl, rfl⟩
  | pan lat lng => exact ⟨rfl, rfl, rfl, rfl, rfl, rfl⟩

theorem run_other (s : MapState) (es : List Event) (h : ∀ e ∈ es, e.isSensor = false) :
    (run s es).mapCenter = s.mapCenter
    ∧ (run s es).locationLoading = s.locationLoading
    ∧ (run s es).effectLocationLoading = s.effectLocationLoading
    ∧ (run s es).sensorSettled = s.sensorSettled
    ∧ (run s es).storage = s.storage
    ∧ (run s es).unhandled = s.unhandled := by
  induction es generalizing s with
  | nil => exact ⟨rfl, rfl, rfl, rfl, rfl, rfl⟩
  | cons e es ih =>
    have h1 := step_other s e (h e (List.mem_cons_self _ _))
    have h2 := ih (step s e) (fun e' he' => h e' (List.mem_cons_of_mem _ he'))
    simp only [run, List.foldl_cons] at h2 ⊢
    obtain ⟨a1, a2, a3, a4, a5, a6⟩ := h1
    obtain ⟨b1, b2, b3, b4, b5, b6⟩ := h2
    exact ⟨b1.trans a1, b2.trans a2, b3.trans a3, b4.trans a4, b5.trans a5, b6.trans a6⟩

/-- Once the promise is settled no event changes the location state. -/
theorem step_after (s : MapState) (e : Event) (h : s.sensorSettled = true) :
    (step s e).mapCenter = s.mapCenter
    ∧ (step s e).locationLoading = s.locationLoading
    ∧ (step s e).storage = s.storage
    ∧ (step s e).unhandled = s.unhandled
    ∧ (step s e).sensorSettled = true := by
  cases e with
  | sensor r =>
    rw [step_sensor_settled s r h]
    exact ⟨rfl, rfl, rfl, rfl, h⟩
  | feed data => exact ⟨rfl, rfl, rfl, rfl, h⟩
  | pan lat lng => exact ⟨rfl, rfl, rfl, rfl, h⟩

theorem run_after (s : MapState) (es : List Event) (h : s.sensorSettled = true) :
    (run s es).mapCenter = s.mapCenter
    ∧ (run s es).locationLoading = s.locationLoading
    ∧ (run s es).storage = s.storage
    ∧ (run s es).unhandled = s.unhandled
    ∧ (run s es).sensorSettled = true := by
  induction es generalizing s with
  | nil => exact ⟨rfl, rfl, rfl, rfl, h⟩
  | cons e es ih =>
    obtain ⟨a1, a2, a3, a4, a5⟩ := step_after s e h
    obtain ⟨b1, b2, b3, b4, b5⟩ := ih (step s e) a5
    simp only [run, List.foldl_cons] at b1 b2 b3 b4 b5 ⊢
    exact ⟨b1.trans a1, b2.trans a2, b3.trans a3, b4.trans a4, b5⟩

theorem run_append (s : MapState) (es fs : List Event) :
    run s (es ++ fs) = run (run s es) fs := by
  simp [run, List.foldl_append]

/-- No event turns `locationLoading` back on. -/
theorem step_loading_false (s : MapState) (e : Event) (h : s.locationLoading = false) :
    (step s e).locationLoading = false := by
  cases e with
  | sensor r =>
    cases hs : s.sensorSettled with
    | true => rw [step_sensor_settled s r hs]; exact h
    | false => exact (step_sensor_settles s r hs).1
  | feed data => exact h
  | pan lat lng => exact h

theorem trace_eq_cons (s : MapState) (es : List Event) : ∃ tl, trace s es = s :: tl := by
  cases es with
  | nil => exact ⟨[], rfl⟩
  | cons e es => exact ⟨trace (step s e) es, rfl⟩

theorem trace_loading_false (s : MapState) (es : List Event) (h : s.locationLoading = false) :
    ∀ x ∈ trace s es, x.locationLoading = false := by
  induction es generalizing s with
  | nil =>
    intro x hx
    simp only [trace, List.mem_singleton] at hx
    subst hx
    exact h
  | cons e es ih =>
    intro x hx
    simp only [trace, List.mem_cons] at hx
    rcases hx with hx | hx
    · subst hx
      exact h
    · exact ih (step s e) (step_loading_false s e h) x hx

theorem reversions_trace (s : MapState) (es : List Event) : reversions (trace s es) = 0 := by
  induction es generalizing s with
  | nil => rfl
  | cons e es ih =>
    obtain ⟨tl, htl⟩ := trace_eq_cons (step s e) es
    have h := ih (step s e)
    rw [htl] at h
    rw [trace, htl, reversions, h]
    have := step_loading_false s e
    by_cases hl : s.locationLoading = false
    · simp [this hl]
    · simp [hl]

theorem settlements_trace_settled (s : MapState) (es : List Event)
    (h : s.locationLoading = false) : settlements (trace s es) = 0 := by
  induction es generalizing s with
  | nil => rfl
  | cons e es ih =>
    obtain ⟨tl, htl⟩ := trace_eq_cons (step s e) es
    have h' := ih (step s e) (step_loading_false s e h)
    rw [htl] at h'
    rw [trace, htl, settlements, h']
    simp [h]

theorem settlements_trace_le (s : MapState) (es : List Event) : settlements (trace s es) ≤ 1 := by
  induction es generalizing s with
  | nil => simp [trace, settlements]
  | cons e es ih =>
    obtain ⟨tl, htl⟩ := trace_eq_cons (step s e) es
    have h1 := ih (step s e)
    rw [trace, htl, settlements]
    by_cases hl : s.locationLoading = true ∧ (step s e).locationLoading = false
    · have h0 := settlements_trace_settled (step s e) es hl.2
      rw [htl] at h0
      rw [if_pos hl, h0]
    · rw [htl] at h1
      rw [if_neg hl]
      omega

/-- A settled promise goes with a cleared loading flag. -/
theorem step_settled_loading (s : MapState) (e : Event)
    (h : s.sensorSettled = true → s.locationLoading = false) :
    (step s e).sensorSettled = true → (step s e).locationLoading = false := by
  intro hs
  cases e with
  | sensor r =>
    cases hp : s.sensorSettled with
    | true => rw [step_sensor_settled s r hp]; exact h hp
    | false => exact (step_sensor_settles s r hp).1
  | feed data => exact h hs
  | pan lat lng => exact h hs

theorem run_settled_loading (s : MapState) (es : List Event)
    (h : s.sensorSettled = true → s.locationLoading = false) :
    (run s es).sensorSettled = true → (run s es).locationLoading = false := by
  induction es generalizing s with
  | nil => exact h
  | cons e es ih => exact ih (step s e) (step_settled_loading s e h)

/-- After any sensor result the loading flag is off, whatever came before. -/
theorem loading_false_after_sensor (s : MapState) (pre : List Event) (r : SensorResult)
    (h : s.sensorSettled = true → s.locationLoading = false) :
    (run s (pre ++ [.sensor r])).locationLoading = false := by
  rw [run_append]
  have hinv := run_settled_loading s pre h
  show (step (run s pre) (.sensor r)).locationLoading = false
  cases hp : (run s pre).sensorSettled with
  | true => rw [step_sensor_settled _ r hp]; exact hinv hp
  | false => exact (step_sensor_settles _ r hp).1

/-- The states of a trace that come after its event number `pre.length`. -/
theorem trace_drop (s : MapState) (pre post : List Event) (e : Event) :
    (trace s (pre ++ e :: post)).drop (pre.length + 1) = trace (run s (pre ++ [e])) post := by
  induction pre generalizing s with
  | nil => rfl
  | cons p ps ih =>
    have := ih (step s p)
    simpa [trace, run] using this

/-- The session that the module load and the first render produce. -/
theorem startSession_eq (storage : Storage) (m : ModuleState) (h : loadModule storage = .ok m) :
    startSession storage = .ok (mount m) := by
  simp [startSession, h]

/-! ## The claims -/

/-- Counterexample to C1 as stated: the storage holds `C = (10, 20)` and has
room for 17 characters; the sensor gives `S = (11.5, 21)`, whose text
`[11.5,21]` does not fit.  The write throws; at the end `mapCenter` is still
`C` and `locationLoading` is false, but the storage holds the text of `C`, not
of `S`. -/
theorem guard_on_cache_hit_counterexample :
    startSession (Storage.mk [("userLatLng", "[10,20]")] 17)
      = .ok (mount ⟨latLng (JSNum.ofInt 10) (JSNum.ofInt 20), true,
          Storage.mk [("userLatLng", "[10,20]")] 17, []⟩)
    ∧ JSON.stringify [JSNum.ofDecimal 115 1, JSNum.ofInt 21] = "[11.5,21]"
    ∧ (Storage.mk [("userLatLng", "[10,20]")] 17).setItem LOCATION_CACHE_KEY
        (JSON.stringify [JSNum.ofDecimal 115 1, JSNum.ofInt 21]) = .error .quotaExceeded
    ∧ (run (mount ⟨latLng (JSNum.ofInt 10) (JSNum.ofInt 20), true,
          Storage.mk [("userLatLng", "[10,20]")] 17, []⟩)
        [.sensor (.position (JSNum.ofDecimal 115 1) (JSNum.ofInt 21))]).mapCenter
        = latLng (JSNum.ofInt 10) (JSNum.ofInt 20)
    ∧ (run (mount ⟨latLng (JSNum.ofInt 10) (JSNum.ofInt 20), true,
          Storage.mk [("userLatLng", "[10,20]")] 17, []⟩)
        [.sensor (.position (JSNum.ofDecimal 115 1) (JSNum.ofInt 21))]).locationLoading = false
    ∧ (run (mount ⟨latLng (JSNum.ofInt 10) (JSNum.ofInt 20), true,
          Storage.mk [("userLatLng", "[10,20]")] 17, []⟩)
        [.sensor (.position (JSNum.ofDecimal 115 1) (JSNum.ofInt 21))]).storage.getItem
          LOCATION_CACHE_KEY = some "[10,20]"
    ∧ (run (mount ⟨latLng (JSNum.ofInt 10) (JSNum.ofInt 20), true,
          Storage.mk [("userLatLng", "[10,20]")] 17, []⟩)
        [.sensor (.position (JSNum.ofDecimal 115 1) (JSNum.ofInt 21))]).storage.getItem
          LOCATION_CACHE_KEY
        ≠ some (JSON.stringify [JSNum.ofDecimal 115 1, JSNum.ofInt 21]) := by
  refine ⟨rfl, rfl, rfl, rfl, rfl, rfl, ?_⟩
  intro h
  have h' : some "[10,20]" = some "[11.5,21]" := h
  exact absurd h' (by decide)

/-- C1 as amended (guard on a cache hit): a session that starts with the
coordinate `C` in storage is settled from the start, and once a position `S`
has come from the sensor, whatever other events come before or after,
`mapCenter` is still `C` and `locationLoading` is false; provided the storage
accepts the write, it holds the text of `S` under the location key. -/
theorem guard_on_cache_hit (storage : Storage) (text : String) (clat clng lat lng : JSNum)
    (pre post : List Event)
    (hget : storage.getItem LOCATION_CACHE_KEY = some text)
    (hparse : JSON.parse text = .ok (latLng clat clng))
    (hpre : ∀ e ∈ pre, e.isSensor = false) :
    ∃ s0, startSession storage = .ok s0
      ∧ s0.mapCenter = latLng clat clng ∧ s0.locationLoading = false
      ∧ (run s0 (pre ++ .sensor (.position lat lng) :: post)).mapCenter = latLng clat clng
      ∧ (run s0 (pre ++ .sensor (.position lat lng) :: post)).locationLoading = false
      ∧ ∀ storage', storage.setItem LOCATION_CACHE_KEY (JSON.stringify [lat, lng]) = .ok storage' →
          (run s0 (pre ++ .sensor (.position lat lng) :: post)).storage.getItem LOCATION_CACHE_KEY
            = some (JSON.stringify [lat, lng]) := by
  have hl := loadModule_hit storage text _ _ hget hparse rfl
  refine ⟨_, startSession_eq storage _ hl, rfl, rfl, ?_⟩
  obtain ⟨p1, p2, p3, p4, p5, _⟩ := run_other (mount _) pre hpre
  have hrun : ∀ t : MapState, run t (pre ++ .sensor (.position lat lng) :: post)
      = run (step (run t pre) (.sensor (.position lat lng))) post := by
    intro t
    rw [run_append]
    rfl
  rw [hrun]
  generalize hs : run (mount _) pre = s at p1 p2 p3 p4 p5
  have hp4 : s.sensorSettled = false := p4
  have hp3 : s.effectLocationLoading = false := p3
  cases hw : s.storage.setItem LOCATION_CACHE_KEY (JSON.stringify [lat, lng]) with
  | ok st =>
    obtain ⟨a1, a2, a3, _, a5⟩ := step_position_stored s lat lng st hp4 hw
    obtain ⟨b1, b2, b3, _, _⟩ := run_after _ post a5
    rw [hp3] at a1
    refine ⟨b1.trans (a1.trans p1), b2.trans a3, ?_⟩
    intro storage' hw'
    rw [b3, a2]
    exact Storage.getItem_setItem _ _ _ _ hw
  | error e =>
    obtain ⟨a1, a2, a3, _, _, a6⟩ := step_position_refused s lat lng e hp4 hw
    obtain ⟨b1, b2, b3, _, _⟩ := run_after _ post a6
    refine ⟨b1.trans (a1.trans p1), b2.trans a3, ?_⟩
    intro storage' hw'
    have hp5 : s.storage = storage := p5
    rw [hp5, hw'] at hw
    exact absurd hw (by simp)

/-- Witness of the amended C1: `C = (10, 20)` in storage, then the sensor gives
`S = (11, 21)`. -/
theorem guard_on_cache_hit_witness :
    (Storage.mk [("userLatLng", "[10,20]")] 100).getItem LOCATION_CACHE_KEY = some "[10,20]"
    ∧ JSON.parse "[10,20]" = .ok (latLng (JSNum.ofInt 10) (JSNum.ofInt 20))
    ∧ (Storage.mk [("userLatLng", "[10,20]")] 100).setItem LOCATION_CACHE_KEY
        (JSON.stringify [JSNum.ofInt 11, JSNum.ofInt 21])
        = .ok (Storage.mk [("userLatLng", "[11,21]")] 100)
    ∧ ∃ s0, startSession (Storage.mk [("userLatLng", "[10,20]")] 100) = .ok s0
      ∧ (run s0 [.sensor (.position (JSNum.ofInt 11) (JSNum.ofInt 21))]).mapCenter
          = latLng (JSNum.ofInt 10) (JSNum.ofInt 20)
      ∧ (run s0 [.sensor (.position (JSNum.ofInt 11) (JSNum.ofInt 21))]).locationLoading = false
      ∧ (run s0 [.sensor (.position (JSNum.ofInt 11) (JSNum.ofInt 21))]).storage.getItem
          LOCATION_CACHE_KEY = some "[11,21]" := by
  refine ⟨rfl, rfl, rfl, ?_⟩
  obtain ⟨s0, h0, _, _, h3, h4, h5⟩ :=
    guard_on_cache_hit (Storage.mk [("userLatLng", "[10,20]")] 100) "[10,20]"
      (JSNum.ofInt 10) (JSNum.ofInt 20) (JSNum.ofInt 11) (JSNum.ofInt 21) [] []
      rfl rfl (fun e he => absurd he (List.not_mem_nil e))
  exact ⟨s0, h0, h3, h4, h5 _ rfl⟩

/-- Counterexample to C2 as stated: a session on empty storage with no room
(quota 0) gets `S = (40, -74)` from the sensor and nothing else happens.  The
write throws, and at the end `mapCenter` is the fallback, not `S`, and the
storage is still empty. -/
theorem sensor_success_on_cache_miss_counterexample :
    startSession (Storage.mk [] 0)
      = .ok (mount ⟨FALLBACK_INITIAL_LOCATION, false, Storage.mk [] 0,
          [.text "User location not set in local storage."]⟩)
    ∧ (mount ⟨FALLBACK_INITIAL_LOCATION, false, Storage.mk [] 0,
          [.text "User location not set in local storage."]⟩).locationLoading = true
    ∧ (Storage.mk [] 0).setItem LOCATION_CACHE_KEY
        (JSON.stringify [JSNum.ofInt 40, JSNum.ofInt (-74)]) = .error .quotaExceeded
    ∧ (run (mount ⟨FALLBACK_INITIAL_LOCATION, false, Storage.mk [] 0,
          [.text "User location not set in local storage."]⟩)
        [.sensor (.position (JSNum.ofInt 40) (JSNum.ofInt (-74)))]).mapCenter
        = FALLBACK_INITIAL_LOCATION
    ∧ (run (mount ⟨FALLBACK_INITIAL_LOCATION, false, Storage.mk [] 0,
          [.text "User location not set in local storage."]⟩)
        [.sensor (.position (JSNum.ofInt 40) (JSNum.ofInt (-74)))]).mapCenter
        ≠ latLng (JSNum.ofInt 40) (JSNum.ofInt (-74))
    ∧ (run (mount ⟨FALLBACK_INITIAL_LOCATION, false, Storage.mk [] 0,
          [.text "User location not set in local storage."]⟩)
        [.sensor (.position (JSNum.ofInt 40) (JSNum.ofInt (-74)))]).storage.getItem
          LOCATION_CACHE_KEY = none := by
  refine ⟨rfl, rfl, rfl, rfl, ?_, rfl⟩
  intro h
  have h' : FALLBACK_INITIAL_LOCATION = latLng (JSNum.ofInt 40) (JSNum.ofInt (-74)) := h
  simp [FALLBACK_INITIAL_LOCATION, latLng, JSNum.ofInt] at h'

/-- C2 as amended (sensor success on a cache miss): a session that starts
without a stored location is provisional at the fallback, and once a position
`S` has come from the sensor, provided the storage accepts the write, whatever
other events come before or after, `mapCenter = S`, `locationLoading = false`
and the storage holds the text of `S` under the location key. -/
theorem sensor_success_on_cache_miss (storage storage' : Storage) (lat lng : JSNum)
    (pre post : List Event)
    (hget : storage.getItem LOCATION_CACHE_KEY = none)
    (hpre : ∀ e ∈ pre, e.isSensor = false)
    (hw : storage.setItem LOCATION_CACHE_KEY (JSON.stringify [lat, lng]) = .ok storage') :
    ∃ s0, startSession storage = .ok s0
      ∧ s0.locationLoading = true ∧ s0.mapCenter = FALLBACK_INITIAL_LOCATION
      ∧ (run s0 (pre ++ .sensor (.position lat lng) :: post)).mapCenter = latLng lat lng
      ∧ (run s0 (pre ++ .sensor (.position lat lng) :: post)).locationLoading = false
      ∧ (run s0 (pre ++ .sensor (.position lat lng) :: post)).storage.getItem LOCATION_CACHE_KEY
          = some (JSON.stringify [lat, lng]) := by
  have hl := loadModule_absent storage hget
  refine ⟨_, startSession_eq storage _ hl, rfl, rfl, ?_⟩
  obtain ⟨p1, p2, p3, p4, p5, _⟩ := run_other (mount _) pre hpre
  have hrun : ∀ t : MapState, run t (pre ++ .sensor (.position lat lng) :: post)
      = run (step (run t pre) (.sensor (.position lat lng))) post := by
    intro t
    rw [run_append]
    rfl
  rw [hrun]
  generalize hs : run (mount _) pre = s at p1 p2 p3 p4 p5
  have hp4 : s.sensorSettled = false := p4
  have hp3 : s.effectLocationLoading = true := p3
  have hp5 : s.storage = storage := p5
  have hw' : s.storage.setItem LOCATION_CACHE_KEY (JSON.stringify [lat, lng]) = .ok storage' := by
    rw [hp5]
    exact hw
  obtain ⟨a1, a2, a3, _, a5⟩ := step_position_stored s lat lng storage' hp4 hw'
  obtain ⟨b1, b2, b3, _, _⟩ := run_after _ post a5
  rw [hp3] at a1
  refine ⟨b1.trans a1, b2.trans a3, ?_⟩
  rw [b3, a2]
  exact Storage.getItem_setItem _ _ _ _ hw

/-- Witness of the amended C2: empty storage with room, then the sensor gives
`S = (40, -74)`. -/
theorem sensor_success_on_cache_miss_witness :
    (Storage.mk [] 100).getItem LOCATION_CACHE_KEY = none
    ∧ (Storage.mk [] 100).setItem LOCATION_CACHE_KEY
        (JSON.stringify [JSNum.ofInt 40, JSNum.ofInt (-74)])
        = .ok (Storage.mk [("userLatLng", "[40,-74]")] 100)
    ∧ ∃ s0, startSession (Storage.mk [] 100) = .ok s0
      ∧ s0.locationLoading = true ∧ s0.mapCenter = FALLBACK_INITIAL_LOCATION
      ∧ (run s0 [.sensor (.position (JSNum.ofInt 40) (JSNum.ofInt (-74)))]).mapCenter
          = latLng (JSNum.ofInt 40) (JSNum.ofInt (-74))
      ∧ (run s0 [.sensor (.position (JSNum.ofInt 40) (JSNum.ofInt (-74)))]).locationLoading
          = false
      ∧ (run s0 [.sensor (.position (JSNum.ofInt 40) (JSNum.ofInt (-74)))]).storage.getItem
          LOCATION_CACHE_KEY = some "[40,-74]" :=
  ⟨rfl, rfl,
    sensor_success_on_cache_miss (Storage.mk [] 100) (Storage.mk [("userLatLng", "[40,-74]")] 100)
      (JSNum.ofInt 40) (JSNum.ofInt (-74)) [] [] rfl
      (fun e he => absurd he (List.not_mem_nil e)) rfl⟩

/-- C3 (sensor failure is not fatal): in every state with the lookup still
pending, a failed lookup of any kind (an error from the platform or no
geolocation at all) leaves `mapCenter` and the storage as they were, turns
`locationLoading` off, and the promise chain ends fulfilled, with no
rejection left unhandled. -/
theorem sensor_failure_keeps_state (s : MapState) (r : SensorResult)
    (hpending : s.sensorSettled = false) (hr : r.isFailure = true) :
    (step s (.sensor r)).mapCenter = s.mapCenter
    ∧ (step s (.sensor r)).storage = s.storage
    ∧ (step s (.sensor r)).locationLoading = false
    ∧ (locationEffect r { s with sensorSettled := true }).1 = .ok ()
    ∧ (step s (.sensor r)).unhandled = s.unhandled := by
  obtain ⟨h1, h2, h3, h4, _⟩ := step_failure s r hpending hr
  refine ⟨h1, h2, h3, ?_, h4⟩
  cases r with
  | position lat lng => exact absurd hr (by simp [SensorResult.isFailure])
  | failed e => rfl
  | unsupported => rfl

/-- Witness of C3: empty storage, then the sensor fails with a denial (code 1):
the centre is the fallback, the loading flag is off, the storage is empty. -/
theorem sensor_failure_keeps_state_witness :
    (mount ⟨FALLBACK_INITIAL_LOCATION, false, Storage.mk [] 100,
        [.text "User location not set in local storage."]⟩).sensorSettled = false
    ∧ (SensorResult.failed (.positionError 1)).isFailure = true
    ∧ startSession (Storage.mk [] 100)
        = .ok (mount ⟨FALLBACK_INITIAL_LOCATION, false, Storage.mk [] 100,
            [.text "User location not set in local storage."]⟩)
    ∧ (step (mount ⟨FALLBACK_INITIAL_LOCATION, false, Storage.mk [] 100,
            [.text "User location not set in local storage."]⟩)
          (.sensor (.failed (.positionError 1)))).mapCenter = FALLBACK_INITIAL_LOCATION
    ∧ (step (mount ⟨FALLBACK_INITIAL_LOCATION, false, Storage.mk [] 100,
            [.text "User location not set in local storage."]⟩)
          (.sensor (.failed (.positionError 1)))).storage = Storage.mk [] 100
    ∧ (step (mount ⟨FALLBACK_INITIAL_LOCATION, false, Storage.mk [] 100,
            [.text "User location not set in local storage."]⟩)
          (.sensor (.failed (.positionError 1)))).locationLoading = false :=
  have h := sensor_failure_keeps_state
    (mount ⟨FALLBACK_INITIAL_LOCATION, false, Storage.mk [] 100,
      [.text "User location not set in local storage."]⟩)
    (.failed (.positionError 1)) rfl rfl
  ⟨rfl, rfl, rfl, h.1, h.2.1, h.2.2.1⟩

/-- Counterexample to C4 as stated: the stored texts `[1,2,3]` (a
three-element array) and `"NY"` (a JSON string) are not the JSON of a
two-element numeric array, yet the module load takes each as a cache hit and
clears nothing. -/
theorem corruption_counterexample :
    isCoordinateText "[1,2,3]" = false
    ∧ loadModule (Storage.mk [("userLatLng", "[1,2,3]"), ("theme", "dark")] 100)
        = .ok ⟨latLng (JSNum.ofInt 1) (JSNum.ofInt 2), true,
            Storage.mk [("userLatLng", "[1,2,3]"), ("theme", "dark")] 100, []⟩
    ∧ isCoordinateText "\"NY\"" = false
    ∧ loadModule (Storage.mk [("userLatLng", "\"NY\""), ("theme", "dark")] 100)
        = .ok ⟨.arr [.str "N", .str "Y"], true,
            Storage.mk [("userLatLng", "\"NY\""), ("theme", "dark")] 100, []⟩ :=
  ⟨rfl, rfl, rfl, rfl⟩

/-- C4 as amended: when the text stored under the location key is one that
`JSON.parse` rejects, or whose value is not iterable (null, a boolean, a
number, an object), the module load ends without a throw, with
`locationCacheHit = false`, the fallback as `initialLocation`, and the whole
storage area cleared. -/
theorem unreadable_cache_is_cleared (storage : Storage) (text : String)
    (hget : storage.getItem LOCATION_CACHE_KEY = some text) (hbad : unreadable text = true) :
    ∃ m, loadModule storage = .ok m
      ∧ m.locationCacheHit = false ∧ m.initialLocation = FALLBACK_INITIAL_LOCATION
      ∧ m.storage = storage.clear ∧ m.storage.items = [] := by
  obtain ⟨e, he⟩ := loadModule_thrown storage text hget hbad
  exact ⟨_, he, rfl, rfl, rfl, rfl⟩

/-- Witness of the amended C4: the stored text `51.5;-0.1` is not JSON; the
load clears the other item too. -/
theorem unreadable_cache_is_cleared_witness :
    (Storage.mk [("theme", "dark"), ("userLatLng", "51.5;-0.1")] 100).getItem LOCATION_CACHE_KEY
        = some "51.5;-0.1"
    ∧ unreadable "51.5;-0.1" = true
    ∧ ∃ m, loadModule (Storage.mk [("theme", "dark"), ("userLatLng", "51.5;-0.1")] 100) = .ok m
      ∧ m.locationCacheHit = false ∧ m.initialLocation = FALLBACK_INITIAL_LOCATION
      ∧ m.storage = (Storage.mk [("theme", "dark"), ("userLatLng", "51.5;-0.1")] 100).clear
      ∧ m.storage.items = [] :=
  ⟨rfl, rfl, unreadable_cache_is_cleared _ "51.5;-0.1" rfl rfl⟩

/-- C5 (cache trust): when the storage holds, under the location key, a JSON
text of the array `[lat, lng]`, the session starts with `mapCenter = [lat, lng]`
and `locationLoading = false`, the load leaves the storage as it was, and all
three stay so for as long as no sensor result has come in. -/
theorem cache_trust (storage : Storage) (text : String) (lat lng : JSNum)
    (hget : storage.getItem LOCATION_CACHE_KEY = some text)
    (hparse : JSON.parse text = .ok (latLng lat lng)) :
    ∃ s0, startSession storage = .ok s0
      ∧ s0.mapCenter = latLng lat lng ∧ s0.locationLoading = false ∧ s0.storage = storage
      ∧ ∀ es, (∀ e ∈ es, e.isSensor = false) →
          (run s0 es).mapCenter = latLng lat lng
          ∧ (run s0 es).locationLoading = false
          ∧ (run s0 es).storage = storage := by
  have hl := loadModule_hit storage text _ _ hget hparse rfl
  refine ⟨_, startSession_eq storage _ hl, rfl, rfl, rfl, ?_⟩
  intro es hes
  obtain ⟨h1, h2, _, _, h5, _⟩ := run_other (mount _) es hes
  exact ⟨h1, h2, h5⟩

/-- Witness of C5: the storage holds the text `[10.0, 20.0]`. -/
theorem cache_trust_witness :
    (Storage.mk [("userLatLng", "[10.0, 20.0]")] 100).getItem LOCATION_CACHE_KEY
        = some "[10.0, 20.0]"
    ∧ JSON.parse "[10.0, 20.0]" = .ok (latLng (JSNum.ofInt 10) (JSNum.ofInt 20))
    ∧ ∃ s0, startSession (Storage.mk [("userLatLng", "[10.0, 20.0]")] 100) = .ok s0
      ∧ s0.mapCenter = latLng (JSNum.ofInt 10) (JSNum.ofInt 20)
      ∧ s0.locationLoading = false
      ∧ s0.storage = Storage.mk [("userLatLng", "[10.0, 20.0]")] 100
      ∧ ∀ es, (∀ e ∈ es, e.isSensor = false) →
          (run s0 es).mapCenter = latLng (JSNum.ofInt 10) (JSNum.ofInt 20)
          ∧ (run s0 es).locationLoading = false
          ∧ (run s0 es).storage = Storage.mk [("userLatLng", "[10.0, 20.0]")] 100 :=
  ⟨rfl, rfl, cache_trust _ "[10.0, 20.0]" _ _ rfl rfl⟩

/-- Counterexample to C6 as stated: the stored text `[1,2,3]` (a
three-element array) is not the JSON of a two-element numeric array, yet the
session starts with `locationLoading = false` and `mapCenter = [1, 2]`, not the
fallback. -/
theorem provisional_start_counterexample :
    isCoordinateText "[1,2,3]" = false
    ∧ startSession (Storage.mk [("userLatLng", "[1,2,3]")] 100)
        = .ok (mount ⟨latLng (JSNum.ofInt 1) (JSNum.ofInt 2), true,
            Storage.mk [("userLatLng", "[1,2,3]")] 100, []⟩)
    ∧ (mount ⟨latLng (JSNum.ofInt 1) (JSNum.ofInt 2), true,
            Storage.mk [("userLatLng", "[1,2,3]")] 100, []⟩).locationLoading = false
    ∧ (mount ⟨latLng (JSNum.ofInt 1) (JSNum.ofInt 2), true,
            Storage.mk [("userLatLng", "[1,2,3]")] 100, []⟩).mapCenter
        = latLng (JSNum.ofInt 1) (JSNum.ofInt 2)
    ∧ latLng (JSNum.ofInt 1) (JSNum.ofInt 2) ≠ FALLBACK_INITIAL_LOCATION := by
  refine ⟨rfl, rfl, rfl, rfl, ?_⟩
  intro h
  simp [FALLBACK_INITIAL_LOCATION, latLng, JSNum.ofInt] at h

/-- C6 as amended: when the storage has no item under the location key, or
one whose text `JSON.parse` rejects or whose value is not iterable, the
session starts with `locationLoading = true` and `mapCenter` at the fallback
`[51.505, -0.09]`. -/
theorem provisional_start_without_cache (storage : Storage)
    (h : storage.getItem LOCATION_CACHE_KEY = none
      ∨ ∃ text, storage.getItem LOCATION_CACHE_KEY = some text ∧ unreadable text = true) :
    ∃ s0, startSession storage = .ok s0
      ∧ s0.locationLoading = true
      ∧ s0.mapCenter = latLng (JSNum.ofDecimal 51505 3) (JSNum.ofDecimal (-9) 2) := by
  rcases h with h | ⟨text, hget, hbad⟩
  · exact ⟨_, startSession_eq storage _ (loadModule_absent storage h), rfl, rfl⟩
  · obtain ⟨e, he⟩ := loadModule_thrown storage text hget hbad
    exact ⟨_, startSession_eq storage _ he, rfl, rfl⟩

/-- Witness of the amended C6: the stored text `42` is a JSON number. -/
theorem provisional_start_without_cache_witness :
    ((Storage.mk [("userLatLng", "42")] 100).getItem LOCATION_CACHE_KEY = none
      ∨ ∃ text, (Storage.mk [("userLatLng", "42")] 100).getItem LOCATION_CACHE_KEY = some text
          ∧ unreadable text = true)
    ∧ ∃ s0, startSession (Storage.mk [("userLatLng", "42")] 100) = .ok s0
      ∧ s0.locationLoading = true
      ∧ s0.mapCenter = latLng (JSNum.ofDecimal 51505 3) (JSNum.ofDecimal (-9) 2) :=
  ⟨Or.inr ⟨"42", rfl, rfl⟩,
    provisional_start_without_cache _ (Or.inr ⟨"42", rfl, rfl⟩)⟩

/-- C7 (terminal settlement): for every initial storage the session starts,
and along the states of every sequence of events `locationLoading` never goes
from false to true and goes from true to false at most once; in every state
that follows a sensor result, whatever the result, it is false. -/
theorem terminal_settlement (storage : Storage) :
    ∃ s0, startSession storage = .ok s0
      ∧ (∀ es : List Event,
          reversions (trace s0 es) = 0 ∧ settlements (trace s0 es) ≤ 1)
      ∧ ∀ (pre post : List Event) (r : SensorResult),
          ∀ x ∈ (trace s0 (pre ++ .sensor r :: post)).drop (pre.length + 1),
            x.locationLoading = false := by
  obtain ⟨m, hm⟩ := loadModule_total storage
  refine ⟨mount m, startSession_eq storage m hm, ?_, ?_⟩
  · intro es
    exact ⟨reversions_trace _ es, settlements_trace_le _ es⟩
  · intro pre post r x hx
    rw [trace_drop] at hx
    have h0 : (mount m).sensorSettled = true → (mount m).locationLoading = false := by
      intro h
      exact absurd h (by simp [mount])
    exact trace_loading_false _ post (loading_false_after_sensor (mount m) pre r h0) x hx

/-- C8, the code at the failing input: the storage is full with another item
and has no location, so the session is awaiting the sensor; the sensor gives
`S = (48.8566, 2.3522)` and the write of its text throws.  The throw is logged,
nothing is left unhandled and `locationLoading` becomes false, but the
then-callback never reaches `setMapCenter`: `mapCenter` is still the fallback,
not `S`. -/
theorem refused_write_skips_recentre :
    startSession (Storage.mk [("theme", "dark")] 9)
      = .ok (mount ⟨FALLBACK_INITIAL_LOCATION, false, Storage.mk [("theme", "dark")] 9,
          [.text "User location not set in local storage."]⟩)
    ∧ (mount ⟨FALLBACK_INITIAL_LOCATION, false, Storage.mk [("theme", "dark")] 9,
          [.text "User location not set in local storage."]⟩).locationLoading = true
    ∧ JSON.stringify [JSNum.ofDecimal 488566 4, JSNum.ofDecimal 23522 4] = "[48.8566,2.3522]"
    ∧ (Storage.mk [("theme", "dark")] 9).setItem LOCATION_CACHE_KEY
        (JSON.stringify [JSNum.ofDecimal 488566 4, JSNum.ofDecimal 23522 4])
        = .error .quotaExceeded
    ∧ (step (mount ⟨FALLBACK_INITIAL_LOCATION, false, Storage.mk [("theme", "dark")] 9,
          [.text "User location not set in local storage."]⟩)
        (.sensor (.position (JSNum.ofDecimal 488566 4) (JSNum.ofDecimal 23522 4)))).unhandled
        = []
    ∧ (step (mount ⟨FALLBACK_INITIAL_LOCATION, false, Storage.mk [("theme", "dark")] 9,
          [.text "User location not set in local storage."]⟩)
        (.sensor (.position (JSNum.ofDecimal 488566 4)
          (JSNum.ofDecimal 23522 4)))).locationLoading = false
    ∧ (step (mount ⟨FALLBACK_INITIAL_LOCATION, false, Storage.mk [("theme", "dark")] 9,
          [.text "User location not set in local storage."]⟩)
        (.sensor (.position (JSNum.ofDecimal 488566 4) (JSNum.ofDecimal 23522 4)))).mapCenter
        = FALLBACK_INITIAL_LOCATION
    ∧ (step (mount ⟨FALLBACK_INITIAL_LOCATION, false, Storage.mk [("theme", "dark")] 9,
          [.text "User location not set in local storage."]⟩)
        (.sensor (.position (JSNum.ofDecimal 488566 4) (JSNum.ofDecimal 23522 4)))).mapCenter
        ≠ latLng (JSNum.ofDecimal 488566 4) (JSNum.ofDecimal 23522 4) := by
  refine ⟨rfl, rfl, rfl, rfl, rfl, rfl, rfl, ?_⟩
  intro h
  have h' : FALLBACK_INITIAL_LOCATION
      = latLng (JSNum.ofDecimal 488566 4) (JSNum.ofDecimal 23522 4) := h
  simp [FALLBACK_INITIAL_LOCATION, latLng, JSNum.ofDecimal, normalize] at h'

/-- C9 (round trip of the cache): when a position `S` comes from the sensor
and the storage accepts the write, the storage holds `JSON.stringify(S)` under
the location key, and a module load against that storage is a cache hit with
`initialLocation = S` that leaves the storage as it is. -/
theorem cache_round_trip (s : MapState) (lat lng : JSNum) (storage' : Storage)
    (hpending : s.sensorSettled = false)
    (hw : s.storage.setItem LOCATION_CACHE_KEY (JSON.stringify [lat, lng]) = .ok storage') :
    (step s (.sensor (.position lat lng))).storage.getItem LOCATION_CACHE_KEY
        = some (JSON.stringify [lat, lng])
    ∧ loadModule (step s (.sensor (.position lat lng))).storage = .ok
        { initialLocation := latLng lat lng, locationCacheHit := true,
          storage := (step s (.sensor (.position lat lng))).storage, console := [] } := by
  obtain ⟨_, h2, _, _, _⟩ := step_position_stored s lat lng storage' hpending hw
  have hg := Storage.getItem_setItem _ _ _ _ hw
  rw [h2]
  exact ⟨hg, loadModule_hit storage' _ _ _ hg (JSON.parse_stringify_pair lat lng) rfl⟩

/-- Witness of C9: a first session on empty storage gets `(0.0000001, 51.505)`
from the sensor; the text written is `[1e-7,51.505]`, and the next module load
reads it back. -/
theorem cache_round_trip_witness :
    (mount ⟨FALLBACK_INITIAL_LOCATION, false, Storage.mk [] 100, []⟩).sensorSettled = false
    ∧ (Storage.mk [] 100).setItem LOCATION_CACHE_KEY
        (JSON.stringify [JSNum.ofDecimal 1 7, JSNum.ofDecimal 51505 3])
        = .ok (Storage.mk [("userLatLng", "[1e-7,51.505]")] 100)
    ∧ (step (mount ⟨FALLBACK_INITIAL_LOCATION, false, Storage.mk [] 100, []⟩)
        (.sensor (.position (JSNum.ofDecimal 1 7) (JSNum.ofDecimal 51505 3)))).storage.getItem
          LOCATION_CACHE_KEY = some "[1e-7,51.505]"
    ∧ loadModule (step (mount ⟨FALLBACK_INITIAL_LOCATION, false, Storage.mk [] 100, []⟩)
        (.sensor (.position (JSNum.ofDecimal 1 7) (JSNum.ofDecimal 51505 3)))).storage = .ok
        { initialLocation := latLng (JSNum.ofDecimal 1 7) (JSNum.ofDecimal 51505 3),
          locationCacheHit := true,
          storage := (step (mount ⟨FALLBACK_INITIAL_LOCATION, false, Storage.mk [] 100, []⟩)
            (.sensor (.position (JSNum.ofDecimal 1 7) (JSNum.ofDecimal 51505 3)))).storage,
          console := [] } :=
  have h := cache_round_trip (mount ⟨FALLBACK_INITIAL_LOCATION, false, Storage.mk [] 100, []⟩)
    (JSNum.ofDecimal 1 7) (JSNum.ofDecimal 51505 3)
    (Storage.mk [("userLatLng", "[1e-7,51.505]")] 100) rfl
    (show (Storage.mk [] 100).setItem LOCATION_CACHE_KEY
        (JSON.stringify [JSNum.ofDecimal 1 7, JSNum.ofDecimal 51505 3])
        = .ok (Storage.mk [("userLatLng", "[1e-7,51.505]")] 100) from rfl)
  ⟨rfl, rfl, h.1, h.2⟩

/-- C10, the code at the failing input: a session that starts settled on the
cached `(10, 20)`; the user pans to `(12, 22)`; the marker feed then completes.
`mapCenter` never changes, yet the feed's render runs `ViewChanger` and the
view is back at `(10, 20)`. -/
theorem feed_recenters_view :
    startSession (Storage.mk [("userLatLng", "[10,20]")] 100)
      = .ok (mount ⟨latLng (JSNum.ofInt 10) (JSNum.ofInt 20), true,
          Storage.mk [("userLatLng", "[10,20]")] 100, []⟩)
    ∧ (mount ⟨latLng (JSNum.ofInt 10) (JSNum.ofInt 20), true,
          Storage.mk [("userLatLng", "[10,20]")] 100, []⟩).locationLoading = false
    ∧ (run (mount ⟨latLng (JSNum.ofInt 10) (JSNum.ofInt 20), true,
          Storage.mk [("userLatLng", "[10,20]")] 100, []⟩)
        [.pan (JSNum.ofInt 12) (JSNum.ofInt 22)]).view
        = latLng (JSNum.ofInt 12) (JSNum.ofInt 22)
    ∧ (run (mount ⟨latLng (JSNum.ofInt 10) (JSNum.ofInt 20), true,
          Storage.mk [("userLatLng", "[10,20]")] 100, []⟩)
        [.pan (JSNum.ofInt 12) (JSNum.ofInt 22)]).mapCenter
        = latLng (JSNum.ofInt 10) (JSNum.ofInt 20)
    ∧ (run (mount ⟨latLng (JSNum.ofInt 10) (JSNum.ofInt 20), true,
          Storage.mk [("userLatLng", "[10,20]")] 100, []⟩)
        [.pan (JSNum.ofInt 12) (JSNum.ofInt 22), .feed (.arr [])]).mapCenter
        = latLng (JSNum.ofInt 10) (JSNum.ofInt 20)
    ∧ (run (mount ⟨latLng (JSNum.ofInt 10) (JSNum.ofInt 20), true,
          Storage.mk [("userLatLng", "[10,20]")] 100, []⟩)
        [.pan (JSNum.ofInt 12) (JSNum.ofInt 22), .feed (.arr [])]).view
        = latLng (JSNum.ofInt 10) (JSNum.ofInt 20)
    ∧ latLng (JSNum.ofInt 10) (JSNum.ofInt 20) ≠ latLng (JSNum.ofInt 12) (JSNum.ofInt 22) := by
  refine ⟨rfl, rfl, rfl, rfl, rfl, rfl, ?_⟩
  intro h
  simp [latLng, JSNum.ofInt] at h

end Tournamap
